import Mathlib

/-!
Verification of the crawl coordinator in `src/scraper/crawler.py`.

The development shallowly embeds the crawler's shared state and its worker
loop as a labelled transition system.  Atomicity granularity follows the
asyncio semantics of the source: every lock-guarded critical section
(`check_storage_limits`, `add_visited_url`, the `results.append`, the
`update_stats` increments) is a single step, and genuine suspension points
(the page fetch, `page.evaluate`, `asyncio.sleep`, `queue.get`) separate
steps.  The enqueue loop of lines 290-295 together with the following
`update_stats(queued=...)` contains no genuine suspension point
(`asyncio.Queue.put` on an unbounded queue never blocks), so it is one step.

Strings are modelled through their character lists so that all predicates
evaluate by `decide`.  The serialized byte size of a record
(`sys.getsizeof(json.dumps(content))`, line 56) is abstracted as a `bytes`
field of the record, since it is a Python-runtime value.
-/

namespace Crawl

/-- `pre.isPrefixOf s`-based model of JS `String.startsWith` / Python `startswith`. -/
def strStartsWith (s pre : String) : Bool :=
  pre.data.isPrefixOf s.data

/-- Model of JS `String.endsWith` / Python `endswith`. -/
def strEndsWith (s suf : String) : Bool :=
  suf.data.isSuffixOf s.data

/-- Model of JS `href.includes('#')` for a single character. -/
def strContainsChar (s : String) (c : Char) : Bool :=
  s.data.contains c

/-- Substring occurrence on character lists (used for Python `pattern in link`). -/
def hasSub (pat : List Char) : List Char → Bool
  | [] => pat.isEmpty
  | c :: rest => pat.isPrefixOf (c :: rest) || hasSub pat rest

/-- Model of Python `pat in s` (substring containment). -/
def strIncludes (s pat : String) : Bool :=
  hasSub pat.data s.data

/-- `src/config.py` lines 12-16: the crawler settings consumed by the core.
`SCRAPING_DELAY` is a float used only as a sleep duration; sleeps are
modelled as transition labels, so the numeric value is not carried. -/
structure CrawlerSettings where
  TARGET_DOMAIN : String
  MAX_CONCURRENT_SCRAPES : Nat
  URL_BLACKLIST_PATTERNS : List String
  deriving DecidableEq

/-- The defaults of `src/config.py`. -/
def defaultSettings : CrawlerSettings :=
  { TARGET_DOMAIN := "https://roc-eclerc.com/"
    MAX_CONCURRENT_SCRAPES := 3
    URL_BLACKLIST_PATTERNS := ["nos-agences", "avis-de-deces"] }

/-- `crawler.py` lines 17-22: statistics for the crawling process.
Every call site of `update_stats` passes non-negative increments, so the
fields are naturals. -/
structure CrawlStats where
  total_processed : Nat
  total_failed : Nat
  total_queued : Nat
  deriving DecidableEq

/-- `crawler.py` lines 24-28: statistics for storage monitoring
(1 GiB default cap). -/
structure StorageStats where
  total_bytes : Nat
  max_bytes : Nat
  deriving DecidableEq

/-- A page record as assembled by `extract_content` (lines 139-149).
`bytes` abstracts the serialized size `sys.getsizeof(json.dumps(content))`
computed at line 56; `url` is the page url the record is built from. -/
structure PageRec where
  url : String
  title : String
  content : String
  bytes : Nat
  deriving DecidableEq

/-- `crawler.py` lines 38-50: the shared mutable state of one crawl job.
`queue`/`unfinished_tasks` model the `asyncio.Queue` contents and its
internal unfinished-task counter (incremented by `put`, decremented by
`task_done`, awaited by `join`).  `stop` models the `_stop_event` flag. -/
structure SharedState where
  visited_urls : List String
  stats : CrawlStats
  storage_stats : StorageStats
  queue : List String
  unfinished_tasks : Nat
  results : List PageRec
  stop : Bool
  deriving DecidableEq

/-- `crawler.py` lines 52-79, `check_storage_limits`: rejects a content size
that would push the total over the cap without mutating the stats,
otherwise adds it.  (The >80% branch only logs.) -/
def check_storage_limits (st : StorageStats) (content_size : Nat) :
    StorageStats × Bool :=
  if st.total_bytes + content_size > st.max_bytes then
    (st, false)
  else
    ({ st with total_bytes := st.total_bytes + content_size }, true)

/-- `crawler.py` lines 81-87, `add_visited_url`: first-admission check under
`_url_lock`. -/
def add_visited_url (s : SharedState) (url : String) : SharedState × Bool :=
  if url ∈ s.visited_urls then (s, false)
  else ({ s with visited_urls := url :: s.visited_urls }, true)

/-- `crawler.py` lines 106-108, `stop_crawling`. -/
def stop_crawling (s : SharedState) : SharedState :=
  { s with stop := true }

/-- `crawler.py` lines 89-97, `add_result`: storage check, then on failure
`stop_crawling` and `False`; on success append the record and `True`. -/
def add_result (s : SharedState) (result : PageRec) : SharedState × Bool :=
  match check_storage_limits s.storage_stats result.bytes with
  | (st, false) => (stop_crawling { s with storage_stats := st }, false)
  | (st, true) => ({ s with storage_stats := st, results := s.results ++ [result] }, true)

/-- `crawler.py` lines 99-104, `update_stats`. -/
def update_stats (st : CrawlStats) (processed failed queued : Nat) : CrawlStats :=
  { total_processed := st.total_processed + processed
    total_failed := st.total_failed + failed
    total_queued := st.total_queued + queued }

/-- The keep-condition of the JS filter chain in `_extract_links`
(lines 210-218): same-domain prefix, no `#`, no binary-document extension. -/
def jsLinkKeep (domain : String) (href : String) : Bool :=
  strStartsWith href domain && !(strContainsChar href '#') &&
    !(strEndsWith href ".pdf") && !(strEndsWith href ".doc") &&
    !(strEndsWith href ".docx")

/-- `crawler.py` lines 206-226, `_extract_links`: the JS filter chain applied
to the raw hrefs, then the Python blacklist-substring filter (lines 221-224). -/
def extract_links (domain : String) (blacklist : List String)
    (hrefs : List String) : List String :=
  (hrefs.filter (fun href => jsLinkKeep domain href)).filter
    (fun link => !(blacklist.any (fun pat => strIncludes link pat)))

/-- The control point of one worker inside `_worker` (lines 231-310).
Each constructor marks a position between two suspension points of the
loop body; the carried values are the live local variables. -/
inductive WStatus where
  /-- line 239: about to evaluate `while not self.state.should_stop`. -/
  | loopHead
  /-- line 243: blocked in `queue.get` (with 10s timeout). -/
  | atGet
  /-- line 253: got `url`, about to call `add_visited_url`. -/
  | admitting (url : String)
  /-- line 254: duplicate found, about to call `task_done` and continue. -/
  | dupAck (url : String)
  /-- lines 260-266: in `page.goto` attempt `attempt` (0-based) for `url`. -/
  | fetching (url : String) (attempt : Nat)
  /-- line 271: attempt `attempt` failed, sleeping `2 ** attempt` seconds. -/
  | backingOff (url : String) (attempt : Nat)
  /-- line 273: navigation succeeded, in `extract_content`. -/
  | extracting (url : String)
  /-- line 276: record built, about to run the storage check of `add_result`.
  `url` is the dequeued url still live in the worker's locals; `rec.url` is
  the record's own url field, which is `page.url` (line 142) and may differ
  from `url` when the navigation was redirected. -/
  | reserving (url : String) (rec : PageRec)
  /-- line 96: storage reserved, about to append under `_results_lock`. -/
  | appending (url : String) (rec : PageRec)
  /-- line 285: about to run `update_stats(processed=1)`. -/
  | bumpingProcessed (url : String)
  /-- line 288: in `_extract_links` (a real suspension: `page.evaluate`). -/
  | discovering (url : String)
  /-- line 298: in `asyncio.sleep(settings.crawler.SCRAPING_DELAY)`. -/
  | sleeping (url : String)
  /-- line 307: in the `except` block, about to run `update_stats(failed=1)`. -/
  | failing (url : String)
  /-- line 310: failure counted, about to call `task_done` and loop. -/
  | failAck (url : String)
  /-- the worker's loop has ended (break, stop flag, or cancellation). -/
  | exited
  deriving DecidableEq

/-- Observable of one transition; `i` is the index of the acting worker. -/
inductive StepLabel where
  /-- an unobserved worker step. -/
  | tau (i : Nat)
  /-- the coordinator sets the stop flag (deadline / `finally`, lines 351-360). -/
  | sys
  /-- worker `i` dequeues `u` (line 243). -/
  | dequeueL (i : Nat) (u : String)
  /-- worker `i`'s `add_visited_url u` returned `True` (line 253). -/
  | admitT (i : Nat) (u : String)
  /-- worker `i`'s `add_visited_url u` returned `False` (line 253). -/
  | admitF (i : Nat) (u : String)
  /-- worker `i` calls `queue.task_done()` (line 254 or line 310). -/
  | taskDoneL (i : Nat)
  /-- worker `i`'s `extract_content` for requested url `url` built a record
  whose url field is `pageUrl` (the renderer's `page.url`, line 142). -/
  | extractL (i : Nat) (url : String) (pageUrl : String)
  /-- worker `i` sleeps `secs` seconds of retry backoff (line 271). -/
  | sleepBackoffL (i : Nat) (secs : Nat)
  /-- worker `i` sleeps `SCRAPING_DELAY` (line 298). -/
  | sleepDelayL (i : Nat)
  deriving DecidableEq

/-- The whole system: the shared state, the workers' control points, and a
ghost counter `leaked` of queue tokens that will never be `task_done`-acked
(their holder finished a successful iteration, broke on the storage limit,
or was cancelled).  `leaked` records proof bookkeeping only; no transition
reads it. -/
structure Sys where
  shared : SharedState
  workers : List WStatus
  leaked : Nat
  deriving DecidableEq

/-- Links actually enqueued at lines 290-293: the filtered links of the page
that are not in the (momentary) visited set. -/
def newLinks (cfg : CrawlerSettings) (visited : List String)
    (raw : List String) : List String :=
  (extract_links cfg.TARGET_DOMAIN cfg.URL_BLACKLIST_PATTERNS raw).filter
    (fun l => !(visited.contains l))

/-- A worker holds an un-acked queue token: it is past a successful
`queue.get` and has neither acked it nor returned to the loop head. -/
def holding : WStatus → Bool
  | .loopHead => false
  | .atGet => false
  | .exited => false
  | _ => true

/-- One atomic step of the system.  Worker steps act at index `i`; fetch and
extraction outcomes and the raw link list of a page are external
nondeterminism.  The coordinator may set the stop flag at any time
(deadline), and any worker may be cancelled at a suspension point
(`asyncio.wait_for` cancelling the `gather`, lines 347-350). -/
inductive GStep (cfg : CrawlerSettings) : Sys → StepLabel → Sys → Prop
  /-- line 239: stop flag set at the loop head: leave the loop. -/
  | stopExit (s : Sys) (i : Nat)
      (h : s.workers[i]? = some .loopHead) (hs : s.shared.stop = true) :
      GStep cfg s (.tau i) { s with workers := s.workers.set i .exited }
  /-- line 239-243: stop flag clear, move to the queue dequeue. -/
  | toGet (s : Sys) (i : Nat)
      (h : s.workers[i]? = some .loopHead) (hs : s.shared.stop = false) :
      GStep cfg s (.tau i) { s with workers := s.workers.set i .atGet }
  /-- line 243: `queue.get` returns the head of the queue. -/
  | getItem (s : Sys) (i : Nat) (u : String) (rest : List String)
      (h : s.workers[i]? = some .atGet) (hq : s.shared.queue = u :: rest) :
      GStep cfg s (.dequeueL i u)
        { s with shared := { s.shared with queue := rest },
                 workers := s.workers.set i (.admitting u) }
  /-- lines 247-249: timeout with an empty queue: break. -/
  | getTimeoutEmpty (s : Sys) (i : Nat)
      (h : s.workers[i]? = some .atGet) (hq : s.shared.queue = []) :
      GStep cfg s (.tau i) { s with workers := s.workers.set i .exited }
  /-- lines 247-250: timeout but the queue is no longer empty: continue. -/
  | getTimeoutBusy (s : Sys) (i : Nat)
      (h : s.workers[i]? = some .atGet) (hq : s.shared.queue ≠ []) :
      GStep cfg s (.tau i) { s with workers := s.workers.set i .loopHead }
  /-- lines 253-255: `add_visited_url` returns `False`: duplicate. -/
  | admitDup (s : Sys) (i : Nat) (u : String)
      (h : s.workers[i]? = some (.admitting u))
      (hv : (add_visited_url s.shared u).2 = false) :
      GStep cfg s (.admitF i u)
        { s with shared := (add_visited_url s.shared u).1,
                 workers := s.workers.set i (.dupAck u) }
  /-- line 253: `add_visited_url` returns `True`: first admission. -/
  | admitNew (s : Sys) (i : Nat) (u : String)
      (h : s.workers[i]? = some (.admitting u))
      (hv : (add_visited_url s.shared u).2 = true) :
      GStep cfg s (.admitT i u)
        { s with shared := (add_visited_url s.shared u).1,
                 workers := s.workers.set i (.fetching u 0) }
  /-- line 254: `task_done` for the duplicate, then `continue`. -/
  | dupAckStep (s : Sys) (i : Nat) (u : String)
      (h : s.workers[i]? = some (.dupAck u)) :
      GStep cfg s (.taskDoneL i)
        { s with shared := { s.shared with
                   unfinished_tasks := s.shared.unfinished_tasks - 1 },
                 workers := s.workers.set i .loopHead }
  /-- lines 262-267: `page.goto` succeeds: proceed to extraction. -/
  | fetchOk (s : Sys) (i : Nat) (u : String) (a : Nat)
      (h : s.workers[i]? = some (.fetching u a)) :
      GStep cfg s (.tau i) { s with workers := s.workers.set i (.extracting u) }
  /-- lines 268-271: attempt `a ≠ 2` fails: back off. -/
  | fetchRetry (s : Sys) (i : Nat) (u : String) (a : Nat)
      (h : s.workers[i]? = some (.fetching u a)) (ha : a ≠ 2) :
      GStep cfg s (.tau i) { s with workers := s.workers.set i (.backingOff u a) }
  /-- lines 269-270: the third attempt fails: re-raise into the except block. -/
  | fetchFailFinal (s : Sys) (i : Nat) (u : String)
      (h : s.workers[i]? = some (.fetching u 2)) :
      GStep cfg s (.tau i) { s with workers := s.workers.set i (.failing u) }
  /-- line 271: the backoff sleep of `2 ** attempt` ends: next attempt. -/
  | backoffDone (s : Sys) (i : Nat) (u : String) (a : Nat)
      (h : s.workers[i]? = some (.backingOff u a)) :
      GStep cfg s (.sleepBackoffL i (2 ^ a))
        { s with workers := s.workers.set i (.fetching u (a + 1)) }
  /-- line 273: `extract_content` builds the record of the fetched page.
  Its `url` field is `page.url` (line 142), the renderer's final url after
  navigation, which under redirects may differ from the requested `u`; it
  is external nondeterminism here, exposed on the label. -/
  | extractOk (s : Sys) (i : Nat) (u : String)
      (pageUrl title content : String) (bytes : Nat)
      (h : s.workers[i]? = some (.extracting u)) :
      GStep cfg s (.extractL i u pageUrl)
        { s with
          workers := s.workers.set i (.reserving u ⟨pageUrl, title, content, bytes⟩) }
  /-- line 273: `extract_content` raises: fall to the except block. -/
  | extractFail (s : Sys) (i : Nat) (u : String)
      (h : s.workers[i]? = some (.extracting u)) :
      GStep cfg s (.tau i) { s with workers := s.workers.set i (.failing u) }
  /-- lines 276-283 with lines 89-93: `check_storage_limits` refuses the
  record: `add_result` sets the stop flag and returns `False`; the worker
  breaks out of its loop (its token is never acked: `leaked` grows). -/
  | reserveReject (s : Sys) (i : Nat) (u : String) (rec : PageRec)
      (h : s.workers[i]? = some (.reserving u rec))
      (hc : (check_storage_limits s.shared.storage_stats rec.bytes).2 = false) :
      GStep cfg s (.tau i)
        { s with shared := stop_crawling { s.shared with
                   storage_stats := (check_storage_limits s.shared.storage_stats rec.bytes).1 },
                 workers := s.workers.set i .exited,
                 leaked := s.leaked + 1 }
  /-- lines 52-79: `check_storage_limits` accepts and adds the size. -/
  | reserveOk (s : Sys) (i : Nat) (u : String) (rec : PageRec)
      (h : s.workers[i]? = some (.reserving u rec))
      (hc : (check_storage_limits s.shared.storage_stats rec.bytes).2 = true) :
      GStep cfg s (.tau i)
        { s with shared := { s.shared with
                   storage_stats := (check_storage_limits s.shared.storage_stats rec.bytes).1 },
                 workers := s.workers.set i (.appending u rec) }
  /-- lines 95-97: the record is appended under `_results_lock`; the
  worker's local `url` (the dequeued one) stays live for the rest of the
  iteration. -/
  | appendStep (s : Sys) (i : Nat) (u : String) (rec : PageRec)
      (h : s.workers[i]? = some (.appending u rec)) :
      GStep cfg s (.tau i)
        { s with shared := { s.shared with results := s.shared.results ++ [rec] },
                 workers := s.workers.set i (.bumpingProcessed u) }
  /-- line 285: `update_stats(processed=1)`. -/
  | bumpProcessed (s : Sys) (i : Nat) (u : String)
      (h : s.workers[i]? = some (.bumpingProcessed u)) :
      GStep cfg s (.tau i)
        { s with shared := { s.shared with stats := update_stats s.shared.stats 1 0 0 },
                 workers := s.workers.set i (.discovering u) }
  /-- lines 288-295: `_extract_links` returns the filtered links of the page
  (raw hrefs `raw` are external); every link not in the visited set is
  `put` and counted, then `update_stats(queued=queued)` runs.  No genuine
  suspension point separates the puts from the stats update. -/
  | discoverLinks (s : Sys) (i : Nat) (u : String) (raw : List String)
      (h : s.workers[i]? = some (.discovering u)) :
      GStep cfg s (.tau i)
        { s with shared := { s.shared with
                   queue := s.shared.queue ++ newLinks cfg s.shared.visited_urls raw,
                   unfinished_tasks := s.shared.unfinished_tasks +
                     (newLinks cfg s.shared.visited_urls raw).length,
                   stats := update_stats s.shared.stats 0 0
                     (newLinks cfg s.shared.visited_urls raw).length },
                 workers := s.workers.set i (.sleeping u) }
  /-- line 298: the rate-limit sleep ends; the iteration is over and its
  queue token is permanently un-acked. -/
  | sleepStepEnd (s : Sys) (i : Nat) (u : String)
      (h : s.workers[i]? = some (.sleeping u)) :
      GStep cfg s (.sleepDelayL i)
        { s with workers := s.workers.set i .loopHead, leaked := s.leaked + 1 }
  /-- line 307: `update_stats(failed=1)` in the except block. -/
  | failBump (s : Sys) (i : Nat) (u : String)
      (h : s.workers[i]? = some (.failing u)) :
      GStep cfg s (.tau i)
        { s with shared := { s.shared with stats := update_stats s.shared.stats 0 1 0 },
                 workers := s.workers.set i (.failAck u) }
  /-- lines 309-310: `task_done` for the failed url, then back to the loop. -/
  | failAckStep (s : Sys) (i : Nat) (u : String)
      (h : s.workers[i]? = some (.failAck u)) :
      GStep cfg s (.taskDoneL i)
        { s with shared := { s.shared with
                   unfinished_tasks := s.shared.unfinished_tasks - 1 },
                 workers := s.workers.set i .loopHead }
  /-- lines 351-360: the deadline fires or `crawl` reaches its `finally`:
  the coordinator sets the stop flag. -/
  | deadlineStop (s : Sys) :
      GStep cfg s .sys { s with shared := stop_crawling s.shared }
  /-- lines 347-350: cancellation at a suspension point removes a worker;
  a held token leaks. -/
  | cancelWorker (s : Sys) (i : Nat) (pc : WStatus)
      (h : s.workers[i]? = some pc) :
      GStep cfg s (.tau i)
        { s with workers := s.workers.set i .exited,
                 leaked := s.leaked + (if holding pc then 1 else 0) }

/-- `crawl` lines 336-344: the initial state: the seed url is in the queue
(one unfinished task), `n` workers start at the loop head. -/
def initSys (seed : String) (n : Nat) : Sys :=
  { shared := { visited_urls := []
                stats := ⟨0, 0, 0⟩
                storage_stats := ⟨0, 1024 * 1024 * 1024⟩
                queue := [seed]
                unfinished_tasks := 1
                results := []
                stop := false }
    workers := List.replicate n .loopHead
    leaked := 0 }

/-- A finite run: the reflexive-transitive closure of `GStep`, recording
the labels in order. -/
inductive Run (cfg : CrawlerSettings) : Sys → List StepLabel → Sys → Prop
  | refl (s : Sys) : Run cfg s [] s
  | snoc {s₁ : Sys} {ls : List StepLabel} {s₂ : Sys} {l : StepLabel} {s₃ : Sys} :
      Run cfg s₁ ls s₂ → GStep cfg s₂ l s₃ → Run cfg s₁ (ls ++ [l]) s₃

/-- A worker past the `update_stats(processed=1)` of its current (still
unfinished) successful iteration. -/
def pastBump : WStatus → Bool
  | .discovering _ => true
  | .sleeping _ => true
  | _ => false

/-- A worker holding a dequeued url whose processed/failed counting is
still ahead of it. -/
def preCount : WStatus → Bool
  | .admitting _ => true
  | .fetching _ _ => true
  | .backingOff _ _ => true
  | .extracting _ => true
  | .reserving _ _ => true
  | .appending _ _ => true
  | .bumpingProcessed _ => true
  | .failing _ => true
  | _ => false

/-- A worker that may still append a record for its admitted url `u`
(keyed on the dequeued url, the one `add_visited_url` deduplicated). -/
def owns (u : String) : WStatus → Bool
  | .fetching v _ => v == u
  | .backingOff v _ => v == u
  | .extracting v => v == u
  | .reserving v _ => v == u
  | .appending v _ => v == u
  | _ => false

/-- A worker's in-flight record agrees with its requested url — true in
states of runs where the renderer never redirected (`page.url` equal to
the requested url at every extraction). -/
def pcNoRedirect : WStatus → Prop
  | .reserving v rec => rec.url = v
  | .appending v rec => rec.url = v
  | _ => True

/-- A run whose extractions were never redirected: every record built by
`extract_content` has its `page.url` equal to the url the worker
requested. -/
def NoRedirectRun (ls : List StepLabel) : Prop :=
  ∀ i v pu, StepLabel.extractL i v pu ∈ ls → pu = v

/-- The per-worker retry bound: a worker at a fetch attempt has attempt
index ≤ 2 (at most three attempts), and a backoff only follows a
non-final attempt. -/
def pcAttemptOK : WStatus → Prop
  | .fetching _ a => a ≤ 2
  | .backingOff _ a => a ≤ 1
  | _ => True

/-- The boolean results of the `add_visited_url u` calls recorded in a
label trace, in call order (over all workers). -/
def admitResults (u : String) (ls : List StepLabel) : List Bool :=
  ls.filterMap fun l =>
    match l with
    | .admitT _ v => if v = u then some true else none
    | .admitF _ v => if v = u then some false else none
    | _ => none

/-- A call-result sequence that is either empty or `true` followed only by
`false`: the operation succeeded exactly on the first call. -/
def goodSeq : List Bool → Bool
  | [] => true
  | b :: rest => b && rest.all (fun x => x == false)

/-- States reachable in some run of the crawl from its initial state. -/
def Reach (cfg : CrawlerSettings) (seed : String) (n : Nat) (s : Sys) : Prop :=
  ∃ ls, Run cfg (initSys seed n) ls s

/-- C4 as stated: in every reachable state of every run, the results list
holds at most one record per value of the url field. -/
def resultsUrlUniqueClaim : Prop :=
  ∀ cfg seed n s, Reach cfg seed n s →
    ∀ u, (s.shared.results.filter (fun r => r.url == u)).length ≤ 1

/-- The exception classes distinguished by `crawl` (lines 334-358):
`asyncio.TimeoutError` versus any other `Exception`, among which the
browser-launch failure of `browser_context` (lines 120-137; it raises
inside the `try` of `crawl` because `async with self.browser_context()`
is evaluated there). -/
inductive PyError where
  | timeoutError
  | browserLaunchError
  | otherError
  deriving DecidableEq

/-- The final report assembled at lines 367-375.  The report's storage
block (`total_mb`, `usage_percentage`, `max_mb`) is a float view derived
from the two integer fields of `StorageStats`. -/
structure CrawlReport where
  results : List PageRec
  stats : CrawlStats
  storage : StorageStats
  deriving DecidableEq

/-- Lines 367-375: the report is a snapshot of the shared state. -/
def mkReport (s : Sys) : CrawlReport :=
  { results := s.shared.results
    stats := s.shared.stats
    storage := s.shared.storage_stats }

/-- `crawl` lines 332-375: the body (browser startup, worker pool, global
deadline) runs under `try`; `except asyncio.TimeoutError` (line 351) and
`except Exception` (line 357) both only log, and the report is returned
after the `finally`.  `body` is the outcome of the `try` body. -/
def crawl_return (body : Except PyError Unit) (s : Sys) :
    Except PyError CrawlReport :=
  match body with
  | .ok _ => .ok (mkReport s)
  | .error .timeoutError => .ok (mkReport s)
  | .error _ => .ok (mkReport s)

/-- C6's exception clause as stated: a catastrophic startup failure (the
browser cannot be launched) propagates out of `crawl` instead of a report
being returned. -/
def startupFailurePropagates : Prop :=
  ∀ s, crawl_return (Except.error PyError.browserLaunchError) s =
    Except.error PyError.browserLaunchError

/-- C8 as stated, on the failure path: whenever a worker's failed iteration
completes (its `task_done` step out of line 310) and that worker later
dequeues again with no dequeue of its own in between, a `SCRAPING_DELAY`
sleep of some step in between occurred. -/
def sleepsBeforeNextDequeue (cfg : CrawlerSettings) : Prop :=
  ∀ seed n ls₀ s₁, Run cfg (initSys seed n) ls₀ s₁ →
    ∀ i u l₁ s₂, s₁.workers[i]? = some (.failAck u) → GStep cfg s₁ l₁ s₂ →
      ∀ ls s₃, Run cfg s₂ ls s₃ → (∀ v, StepLabel.dequeueL i v ∉ ls) →
        ∀ v l₂ s₄, GStep cfg s₃ l₂ s₄ → l₂ = .dequeueL i v →
          l₁ = .sleepDelayL i ∨ .sleepDelayL i ∈ ls

/-- The spec's reading of the fragment test in C9: a "fragment-only link"
is an href that is nothing but a fragment. -/
def specFragmentOnly (href : String) : Bool :=
  strStartsWith href "#"

/-- The keep-condition exactly as C9 words it: same-domain prefix, not a
fragment-only link, no binary-document extension, no blacklist substring. -/
def specLinkKeep (domain : String) (blacklist : List String)
    (href : String) : Bool :=
  strStartsWith href domain && !(specFragmentOnly href) &&
    !(strEndsWith href ".pdf") && !(strEndsWith href ".doc") &&
    !(strEndsWith href ".docx") &&
    !(blacklist.any (fun pat => strIncludes href pat))

/-- C9 as stated: the enqueue-time filter keeps exactly the links that pass
the spec's four tests, for the configured settings. -/
def linkFilterClaim : Prop :=
  ∀ hrefs href,
    href ∈ extract_links defaultSettings.TARGET_DOMAIN
        defaultSettings.URL_BLACKLIST_PATTERNS hrefs ↔
      (href ∈ hrefs ∧
        specLinkKeep defaultSettings.TARGET_DOMAIN
          defaultSettings.URL_BLACKLIST_PATTERNS href = true)

/-- A concrete record used in demonstration runs. -/
def demoRec : PageRec := { url := "a", title := "t", content := "c", bytes := 100 }

/-- The state of a one-worker run on seed `"a"` after the worker has
admitted, fetched, recorded and counted the seed (8 steps). -/
def demoSys8 : Sys :=
  { shared := { visited_urls := ["a"]
                stats := ⟨1, 0, 0⟩
                storage_stats := ⟨100, 1024 * 1024 * 1024⟩
                queue := []
                unfinished_tasks := 1
                results := [demoRec]
                stop := false }
    workers := [.discovering "a"]
    leaked := 0 }

/-- The state of the same run three steps in (seed admitted, first fetch
attempt in flight). -/
def demoSys3 : Sys :=
  { shared := { visited_urls := ["a"]
                stats := ⟨0, 0, 0⟩
                storage_stats := ⟨0, 1024 * 1024 * 1024⟩
                queue := []
                unfinished_tasks := 1
                results := []
                stop := false }
    workers := [.fetching "a" 0]
    leaked := 0 }

def demoSys1 : Sys :=
  { shared := (initSys "a" 1).shared, workers := [.atGet], leaked := 0 }

def demoSys2 : Sys :=
  { shared := { (initSys "a" 1).shared with queue := [] }
    workers := [.admitting "a"], leaked := 0 }

def demoSys4 : Sys :=
  { shared := demoSys3.shared, workers := [.extracting "a"], leaked := 0 }

def demoSys5 : Sys :=
  { shared := demoSys3.shared, workers := [.reserving "a" demoRec], leaked := 0 }

def demoSys6 : Sys :=
  { shared := { demoSys3.shared with storage_stats := ⟨100, 1024 * 1024 * 1024⟩ }
    workers := [.appending "a" demoRec], leaked := 0 }

def demoSys7 : Sys :=
  { shared := { demoSys6.shared with results := [demoRec] }
    workers := [.bumpingProcessed "a"], leaked := 0 }

/-- A configuration in which every link passes the domain filter, used for
concrete runs exercising link discovery. -/
def cfg0 : CrawlerSettings :=
  { TARGET_DOMAIN := "", MAX_CONCURRENT_SCRAPES := 2, URL_BLACKLIST_PATTERNS := [] }

def cRec : PageRec := { url := "a", title := "t", content := "c", bytes := 10 }

def cSys1 : Sys :=
  { shared := (initSys "a" 2).shared, workers := [.atGet, .loopHead], leaked := 0 }

def cSys2 : Sys :=
  { shared := { (initSys "a" 2).shared with queue := [] }
    workers := [.admitting "a", .loopHead], leaked := 0 }

def cSys3 : Sys :=
  { shared := { (initSys "a" 2).shared with queue := [], visited_urls := ["a"] }
    workers := [.fetching "a" 0, .loopHead], leaked := 0 }

def cSys4 : Sys :=
  { shared := cSys3.shared, workers := [.extracting "a", .loopHead], leaked := 0 }

def cSys5 : Sys :=
  { shared := cSys3.shared, workers := [.reserving "a" cRec, .loopHead], leaked := 0 }

def cSys6 : Sys :=
  { shared := { cSys3.shared with storage_stats := ⟨10, 1024 * 1024 * 1024⟩ }
    workers := [.appending "a" cRec, .loopHead], leaked := 0 }

def cSys7 : Sys :=
  { shared := { cSys6.shared with results := [cRec] }
    workers := [.bumpingProcessed "a", .loopHead], leaked := 0 }

def cSys8 : Sys :=
  { shared := { cSys7.shared with stats := ⟨1, 0, 0⟩ }
    workers := [.discovering "a", .loopHead], leaked := 0 }

def cSys9 : Sys :=
  { shared := { cSys8.shared with
      queue := ["b", "c"], unfinished_tasks := 3, stats := ⟨1, 0, 2⟩ }
    workers := [.sleeping "a", .loopHead], leaked := 0 }

def cSys10 : Sys :=
  { shared := cSys9.shared, workers := [.sleeping "a", .atGet], leaked := 0 }

def cSys11 : Sys :=
  { shared := { cSys9.shared with queue := ["c"] }
    workers := [.sleeping "a", .admitting "b"], leaked := 0 }

def cSys12 : Sys :=
  { shared := { cSys11.shared with visited_urls := ["b", "a"] }
    workers := [.sleeping "a", .fetching "b" 0], leaked := 0 }

def cSys13 : Sys :=
  { shared := cSys12.shared, workers := [.sleeping "a", .backingOff "b" 0], leaked := 0 }

def cSys14 : Sys :=
  { shared := cSys12.shared, workers := [.sleeping "a", .fetching "b" 1], leaked := 0 }

def cSys15 : Sys :=
  { shared := cSys12.shared, workers := [.sleeping "a", .backingOff "b" 1], leaked := 0 }

def cSys16 : Sys :=
  { shared := cSys12.shared, workers := [.sleeping "a", .fetching "b" 2], leaked := 0 }

def cSys17 : Sys :=
  { shared := cSys12.shared, workers := [.sleeping "a", .failing "b"], leaked := 0 }

def cSys18 : Sys :=
  { shared := { cSys12.shared with stats := ⟨1, 1, 2⟩ }
    workers := [.sleeping "a", .failAck "b"], leaked := 0 }

def cSys19 : Sys :=
  { shared := { cSys18.shared with unfinished_tasks := 2 }
    workers := [.sleeping "a", .loopHead], leaked := 0 }

def cSys20 : Sys :=
  { shared := cSys19.shared, workers := [.sleeping "a", .atGet], leaked := 0 }

def cSys21 : Sys :=
  { shared := { cSys19.shared with queue := [] }
    workers := [.sleeping "a", .admitting "c"], leaked := 0 }

def dupSys : Sys :=
  { shared := { visited_urls := ["a"]
                stats := ⟨0, 0, 0⟩
                storage_stats := ⟨0, 1024⟩
                queue := []
                unfinished_tasks := 1
                results := []
                stop := false }
    workers := [.admitting "a"]
    leaked := 0 }

def dupSysAfter : Sys :=
  { shared := (add_visited_url dupSys.shared "a").1
    workers := dupSys.workers.set 0 (.dupAck "a")
    leaked := dupSys.leaked }

def wsOver : SharedState :=
  { visited_urls := [], stats := ⟨0, 0, 0⟩, storage_stats := ⟨900, 1000⟩,
    queue := [], unfinished_tasks := 0, results := [], stop := false }

def wsUnder : SharedState :=
  { visited_urls := [], stats := ⟨0, 0, 0⟩, storage_stats := ⟨100, 1000⟩,
    queue := [], unfinished_tasks := 0, results := [], stop := false }

def wRec : PageRec := { url := "u", title := "t", content := "c", bytes := 200 }

def cSys9After : Sys :=
  { shared := cSys9.shared
    workers := cSys9.workers.set 0 .loopHead
    leaked := cSys9.leaked + 1 }

/-- A record whose url field is the redirect target `"c"`, as built when
`page.goto` was redirected (crawler.py:142 stores `page.url`). -/
def fRecC : PageRec := { url := "c", title := "t", content := "x", bytes := 10 }

def fSys1 : Sys :=
  { shared := (initSys "a" 1).shared, workers := [.atGet], leaked := 0 }

def fSys2 : Sys :=
  { shared := { (initSys "a" 1).shared with queue := [] }
    workers := [.admitting "a"], leaked := 0 }

def fSys3 : Sys :=
  { shared := { (initSys "a" 1).shared with queue := [], visited_urls := ["a"] }
    workers := [.fetching "a" 0], leaked := 0 }

def fSys4 : Sys :=
  { shared := fSys3.shared, workers := [.extracting "a"], leaked := 0 }

def fSys5 : Sys :=
  { shared := fSys3.shared, workers := [.reserving "a" fRecC], leaked := 0 }

def fSys6 : Sys :=
  { shared := { fSys3.shared with storage_stats := ⟨10, 1024 * 1024 * 1024⟩ }
    workers := [.appending "a" fRecC], leaked := 0 }

def fSys7 : Sys :=
  { shared := { fSys6.shared with results := [fRecC] }
    workers := [.bumpingProcessed "a"], leaked := 0 }

def fSys8 : Sys :=
  { shared := { fSys7.shared with stats := ⟨1, 0, 0⟩ }
    workers := [.discovering "a"], leaked := 0 }

def fSys9 : Sys :=
  { shared := { fSys8.shared with
      queue := ["b"], unfinished_tasks := 2, stats := ⟨1, 0, 1⟩ }
    workers := [.sleeping "a"], leaked := 0 }

def fSys10 : Sys :=
  { shared := fSys9.shared, workers := [.loopHead], leaked := 1 }

def fSys11 : Sys :=
  { shared := fSys9.shared, workers := [.atGet], leaked := 1 }

def fSys12 : Sys :=
  { shared := { fSys9.shared with queue := [] }
    workers := [.admitting "b"], leaked := 1 }

def fSys13 : Sys :=
  { shared := { fSys12.shared with visited_urls := ["b", "a"] }
    workers := [.fetching "b" 0], leaked := 1 }

def fSys14 : Sys :=
  { shared := fSys13.shared, workers := [.extracting "b"], leaked := 1 }

def fSys15 : Sys :=
  { shared := fSys13.shared, workers := [.reserving "b" fRecC], leaked := 1 }

def fSys16 : Sys :=
  { shared := { fSys13.shared with storage_stats := ⟨20, 1024 * 1024 * 1024⟩ }
    workers := [.appending "b" fRecC], leaked := 1 }

def fSys17 : Sys :=
  { shared := { fSys16.shared with results := [fRecC, fRecC] }
    workers := [.bumpingProcessed "b"], leaked := 1 }

theorem check_snd_true {st : StorageStats} {sz : Nat}
    (h : (check_storage_limits st sz).2 = true) :
    st.total_bytes + sz ≤ st.max_bytes ∧
      (check_storage_limits st sz).1 =
        { st with total_bytes := st.total_bytes + sz } := by
  by_cases hc : st.total_bytes + sz > st.max_bytes
  · simp [check_storage_limits, hc] at h
  · exact ⟨by omega, by simp [check_storage_limits, hc]⟩

theorem check_snd_false {st : StorageStats} {sz : Nat}
    (h : (check_storage_limits st sz).2 = false) :
    st.max_bytes < st.total_bytes + sz ∧ (check_storage_limits st sz).1 = st := by
  by_cases hc : st.total_bytes + sz > st.max_bytes
  · exact ⟨hc, by simp [check_storage_limits, hc]⟩
  · simp [check_storage_limits, hc] at h

theorem avu_snd_true {s : SharedState} {u : String}
    (h : (add_visited_url s u).2 = true) :
    u ∉ s.visited_urls ∧
      (add_visited_url s u).1 = { s with visited_urls := u :: s.visited_urls } := by
  by_cases hc : u ∈ s.visited_urls
  · simp [add_visited_url, hc] at h
  · exact ⟨hc, by simp [add_visited_url, hc]⟩

theorem avu_snd_false {s : SharedState} {u : String}
    (h : (add_visited_url s u).2 = false) :
    u ∈ s.visited_urls ∧ (add_visited_url s u).1 = s := by
  by_cases hc : u ∈ s.visited_urls
  · exact ⟨hc, by simp [add_visited_url, hc]⟩
  · simp [add_visited_url, hc] at h

theorem countP_set_of_get {α : Type} (p : α → Bool) (ws : List α) (i : Nat)
    {pc : α} (x : α) (h : ws[i]? = some pc) :
    (ws.set i x).countP p + (if p pc then 1 else 0) =
      ws.countP p + (if p x then 1 else 0) := by
  have hlt : i < ws.length := by
    by_contra hge
    simp [List.getElem?_eq_none (le_of_not_lt hge)] at h
  have hget : ws[i] = pc := by
    have := List.getElem?_eq_getElem hlt
    rw [this] at h
    exact Option.some_injective _ h
  have hpos : p pc = true → 0 < ws.countP p := by
    intro hp
    refine List.countP_pos_iff.mpr ⟨pc, ?_, hp⟩
    exact hget ▸ List.getElem_mem hlt
  rw [List.countP_set p ws i x hlt, hget]
  cases hp : p pc
  · simp [hp]
  · have := hpos hp
    simp [hp]
    omega

theorem countP_pos_of_get {α : Type} (p : α → Bool) (ws : List α) (i : Nat)
    {pc : α} (h : ws[i]? = some pc) (hp : p pc = true) :
    0 < ws.countP p := by
  have hlt : i < ws.length := by
    by_contra hge
    simp [List.getElem?_eq_none (le_of_not_lt hge)] at h
  have hget : ws[i] = pc := by
    have := List.getElem?_eq_getElem hlt
    rw [this] at h
    exact Option.some_injective _ h
  exact List.countP_pos_iff.mpr ⟨pc, hget ▸ List.getElem_mem hlt, hp⟩

/-- Preservation of a state predicate along a run. -/
theorem run_preserve {cfg : CrawlerSettings} {P : Sys → Prop}
    (hstep : ∀ s l s', GStep cfg s l s' → P s → P s')
    {s₀ : Sys} {ls : List StepLabel} {s : Sys}
    (hrun : Run cfg s₀ ls s) : P s₀ → P s := by
  induction hrun with
  | refl => exact id
  | snoc h₁ h₂ ih => exact fun h0 => hstep _ _ _ h₂ (ih h0)

/-- The storage counter stays under the cap (step preservation). -/
theorem storageInv_step {cfg : CrawlerSettings} {s : Sys} {l : StepLabel} {s' : Sys}
    (h : GStep cfg s l s')
    (ih : s.shared.storage_stats.total_bytes ≤ s.shared.storage_stats.max_bytes) :
    s'.shared.storage_stats.total_bytes ≤ s'.shared.storage_stats.max_bytes := by
  cases h <;> simp_all [stop_crawling]
  case admitDup u _ hv =>
    rw [(avu_snd_false hv).2]
    exact ih
  case admitNew u _ hv =>
    rw [(avu_snd_true hv).2]
    exact ih
  case reserveReject rec _ hc =>
    rw [(check_snd_false hc).2]
    exact ih
  case reserveOk rec _ hc =>
    obtain ⟨hle, hfst⟩ := check_snd_true hc
    rw [hfst]
    exact hle

/-- Queue-token accounting (step preservation): the unfinished-task counter
of the queue always equals queue length plus tokens held by workers plus
permanently leaked tokens. -/
theorem tokenInv_step {cfg : CrawlerSettings} {s : Sys} {l : StepLabel} {s' : Sys}
    (h : GStep cfg s l s')
    (ih : s.shared.unfinished_tasks =
      s.shared.queue.length + s.workers.countP holding + s.leaked) :
    s'.shared.unfinished_tasks =
      s'.shared.queue.length + s'.workers.countP holding + s'.leaked := by
  cases h
  case stopExit i hg hs =>
    have hc := countP_set_of_get holding s.workers i .exited hg
    simp [holding] at hc
    simp
    omega
  case toGet i hg hs =>
    have hc := countP_set_of_get holding s.workers i .atGet hg
    simp [holding] at hc
    simp
    omega
  case getItem i u rest hg hq =>
    have hc := countP_set_of_get holding s.workers i (.admitting u) hg
    simp [holding] at hc
    simp [hq] at ih ⊢
    omega
  case getTimeoutEmpty i hg hq =>
    have hc := countP_set_of_get holding s.workers i .exited hg
    simp [holding] at hc
    simp
    omega
  case getTimeoutBusy i hg hq =>
    have hc := countP_set_of_get holding s.workers i .loopHead hg
    simp [holding] at hc
    simp
    omega
  case admitDup i u hg hv =>
    have hc := countP_set_of_get holding s.workers i (.dupAck u) hg
    simp [holding] at hc
    simp [(avu_snd_false hv).2]
    omega
  case admitNew i u hg hv =>
    have hc := countP_set_of_get holding s.workers i (.fetching u 0) hg
    simp [holding] at hc
    simp [(avu_snd_true hv).2]
    omega
  case dupAckStep i u hg =>
    have hc := countP_set_of_get holding s.workers i .loopHead hg
    have hp := countP_pos_of_get holding s.workers i hg (by simp [holding])
    simp [holding] at hc
    simp
    omega
  case fetchOk i u a hg =>
    have hc := countP_set_of_get holding s.workers i (.extracting u) hg
    simp [holding] at hc
    simp
    omega
  case fetchRetry i u a hg ha =>
    have hc := countP_set_of_get holding s.workers i (.backingOff u a) hg
    simp [holding] at hc
    simp
    omega
  case fetchFailFinal i u hg =>
    have hc := countP_set_of_get holding s.workers i (.failing u) hg
    simp [holding] at hc
    simp
    omega
  case backoffDone i u a hg =>
    have hc := countP_set_of_get holding s.workers i (.fetching u (a + 1)) hg
    simp [holding] at hc
    simp
    omega
  case extractOk i u pageUrl title content bytes hg =>
    have hc := countP_set_of_get holding s.workers i (.reserving u ⟨pageUrl, title, content, bytes⟩) hg
    simp [holding] at hc
    simp
    omega
  case extractFail i u hg =>
    have hc := countP_set_of_get holding s.workers i (.failing u) hg
    simp [holding] at hc
    simp
    omega
  case reserveReject i u rec hg hcheck =>
    have hc := countP_set_of_get holding s.workers i .exited hg
    simp [holding] at hc
    simp [stop_crawling]
    omega
  case reserveOk i u rec hg hcheck =>
    have hc := countP_set_of_get holding s.workers i (.appending u rec) hg
    simp [holding] at hc
    simp
    omega
  case appendStep i u rec hg =>
    have hc := countP_set_of_get holding s.workers i (.bumpingProcessed u) hg
    simp [holding] at hc
    simp
    omega
  case bumpProcessed i u hg =>
    have hc := countP_set_of_get holding s.workers i (.discovering u) hg
    simp [holding] at hc
    simp
    omega
  case discoverLinks i u raw hg =>
    have hc := countP_set_of_get holding s.workers i (.sleeping u) hg
    simp [holding] at hc
    simp
    omega
  case sleepStepEnd i u hg =>
    have hc := countP_set_of_get holding s.workers i .loopHead hg
    simp [holding] at hc
    simp
    omega
  case failBump i u hg =>
    have hc := countP_set_of_get holding s.workers i (.failAck u) hg
    simp [holding] at hc
    simp
    omega
  case failAckStep i u hg =>
    have hc := countP_set_of_get holding s.workers i .loopHead hg
    have hp := countP_pos_of_get holding s.workers i hg (by simp [holding])
    simp [holding] at hc
    simp
    omega
  case deadlineStop =>
    simp [stop_crawling]
    omega
  case cancelWorker i pc hg =>
    have hc := countP_set_of_get holding s.workers i .exited hg
    have hex : holding .exited = false := rfl
    rw [hex] at hc
    simp at hc ⊢
    omega

@[simp] theorem avu_stats (s : SharedState) (u : String) :
    (add_visited_url s u).1.stats = s.stats := by
  unfold add_visited_url; split <;> rfl

@[simp] theorem avu_storage (s : SharedState) (u : String) :
    (add_visited_url s u).1.storage_stats = s.storage_stats := by
  unfold add_visited_url; split <;> rfl

@[simp] theorem avu_queue (s : SharedState) (u : String) :
    (add_visited_url s u).1.queue = s.queue := by
  unfold add_visited_url; split <;> rfl

@[simp] theorem avu_unfinished (s : SharedState) (u : String) :
    (add_visited_url s u).1.unfinished_tasks = s.unfinished_tasks := by
  unfold add_visited_url; split <;> rfl

@[simp] theorem avu_results (s : SharedState) (u : String) :
    (add_visited_url s u).1.results = s.results := by
  unfold add_visited_url; split <;> rfl

@[simp] theorem avu_stop (s : SharedState) (u : String) :
    (add_visited_url s u).1.stop = s.stop := by
  unfold add_visited_url; split <;> rfl

@[simp] theorem check_max (st : StorageStats) (sz : Nat) :
    (check_storage_limits st sz).1.max_bytes = st.max_bytes := by
  unfold check_storage_limits; split <;> rfl

theorem mem_of_get {α : Type} {ws : List α} {i : Nat} {pc : α}
    (h : ws[i]? = some pc) : pc ∈ ws := by
  have hlt : i < ws.length := by
    by_contra hge
    simp [List.getElem?_eq_none (le_of_not_lt hge)] at h
  have hget : ws[i] = pc := by
    have := List.getElem?_eq_getElem hlt
    rw [this] at h
    exact Option.some_injective _ h
  exact hget ▸ List.getElem_mem hlt

theorem attemptInv_step {cfg : CrawlerSettings} {s : Sys} {l : StepLabel} {s' : Sys}
    (h : GStep cfg s l s')
    (ih : ∀ pc ∈ s.workers, pcAttemptOK pc) :
    ∀ pc ∈ s'.workers, pcAttemptOK pc := by
  cases h
  case deadlineStop =>
    intro pc hpc
    exact ih _ (by simpa using hpc)
  case fetchRetry i u a hg ha =>
    intro pc hpc
    rcases List.mem_or_eq_of_mem_set (by simpa using hpc) with hmem | rfl
    · exact ih _ hmem
    · have := ih _ (mem_of_get hg)
      simp only [pcAttemptOK] at this ⊢
      omega
  case backoffDone i u a hg =>
    intro pc hpc
    rcases List.mem_or_eq_of_mem_set (by simpa using hpc) with hmem | rfl
    · exact ih _ hmem
    · have := ih _ (mem_of_get hg)
      simp only [pcAttemptOK] at this ⊢
      omega
  case admitNew i u hg hv =>
    intro pc hpc
    rcases List.mem_or_eq_of_mem_set (by simpa using hpc) with hmem | rfl
    · exact ih _ hmem
    · simp [pcAttemptOK]
  all_goals (
    intro pc hpc
    rcases List.mem_or_eq_of_mem_set (by simpa using hpc) with hmem | rfl
    · exact ih _ hmem
    · trivial)

/-- The visited set only grows. -/
theorem visited_mono_step {cfg : CrawlerSettings} {s : Sys} {l : StepLabel} {s' : Sys}
    (h : GStep cfg s l s') :
    ∀ u, u ∈ s.shared.visited_urls → u ∈ s'.shared.visited_urls := by
  intro u hu
  cases h <;> simp_all [stop_crawling]
  case admitDup v hg hv =>
    rw [(avu_snd_false hv).2]
    exact hu
  case admitNew v hg hv =>
    rw [(avu_snd_true hv).2]
    exact List.mem_cons_of_mem _ hu

/-- Results are append-only: one step only ever appends. -/
theorem results_append_step {cfg : CrawlerSettings} {s : Sys} {l : StepLabel} {s' : Sys}
    (h : GStep cfg s l s') :
    ∃ t, s'.shared.results = s.shared.results ++ t := by
  cases h
  case appendStep i u rec hg =>
    exact ⟨[rec], by simp⟩
  all_goals exact ⟨[], by simp [stop_crawling]⟩

/-- The three counters never decrease in one step. -/
theorem stats_mono_step {cfg : CrawlerSettings} {s : Sys} {l : StepLabel} {s' : Sys}
    (h : GStep cfg s l s') :
    s.shared.stats.total_processed ≤ s'.shared.stats.total_processed ∧
    s.shared.stats.total_failed ≤ s'.shared.stats.total_failed ∧
    s.shared.stats.total_queued ≤ s'.shared.stats.total_queued := by
  cases h <;> simp_all [stop_crawling, update_stats]

/-- Counter accounting (step preservation): processed + failed, the queue
contents and the workers still ahead of their counting step are covered by
`total_queued + 1` (the `+ 1` is the seed url). -/
theorem statsInv_step {cfg : CrawlerSettings} {s : Sys} {l : StepLabel} {s' : Sys}
    (h : GStep cfg s l s')
    (ih : s.shared.stats.total_processed + s.shared.stats.total_failed +
      s.shared.queue.length + s.workers.countP preCount ≤
      s.shared.stats.total_queued + 1) :
    s'.shared.stats.total_processed + s'.shared.stats.total_failed +
      s'.shared.queue.length + s'.workers.countP preCount ≤
      s'.shared.stats.total_queued + 1 := by
  cases h
  case stopExit i hg hs =>
    have hc := countP_set_of_get preCount s.workers i .exited hg
    simp [preCount] at hc
    simp
    omega
  case toGet i hg hs =>
    have hc := countP_set_of_get preCount s.workers i .atGet hg
    simp [preCount] at hc
    simp
    omega
  case getItem i u rest hg hq =>
    have hc := countP_set_of_get preCount s.workers i (.admitting u) hg
    simp [preCount] at hc
    simp [hq] at ih ⊢
    omega
  case getTimeoutEmpty i hg hq =>
    have hc := countP_set_of_get preCount s.workers i .exited hg
    simp [preCount] at hc
    simp
    omega
  case getTimeoutBusy i hg hq =>
    have hc := countP_set_of_get preCount s.workers i .loopHead hg
    simp [preCount] at hc
    simp
    omega
  case admitDup i u hg hv =>
    have hc := countP_set_of_get preCount s.workers i (.dupAck u) hg
    simp [preCount] at hc
    simp
    omega
  case admitNew i u hg hv =>
    have hc := countP_set_of_get preCount s.workers i (.fetching u 0) hg
    simp [preCount] at hc
    simp
    omega
  case dupAckStep i u hg =>
    have hc := countP_set_of_get preCount s.workers i .loopHead hg
    simp [preCount] at hc
    simp
    omega
  case fetchOk i u a hg =>
    have hc := countP_set_of_get preCount s.workers i (.extracting u) hg
    simp [preCount] at hc
    simp
    omega
  case fetchRetry i u a hg ha =>
    have hc := countP_set_of_get preCount s.workers i (.backingOff u a) hg
    simp [preCount] at hc
    simp
    omega
  case fetchFailFinal i u hg =>
    have hc := countP_set_of_get preCount s.workers i (.failing u) hg
    simp [preCount] at hc
    simp
    omega
  case backoffDone i u a hg =>
    have hc := countP_set_of_get preCount s.workers i (.fetching u (a + 1)) hg
    simp [preCount] at hc
    simp
    omega
  case extractOk i u pageUrl title content bytes hg =>
    have hc := countP_set_of_get preCount s.workers i (.reserving u ⟨pageUrl, title, content, bytes⟩) hg
    simp [preCount] at hc
    simp
    omega
  case extractFail i u hg =>
    have hc := countP_set_of_get preCount s.workers i (.failing u) hg
    simp [preCount] at hc
    simp
    omega
  case reserveReject i u rec hg hcheck =>
    have hc := countP_set_of_get preCount s.workers i .exited hg
    simp [preCount] at hc
    simp [stop_crawling]
    omega
  case reserveOk i u rec hg hcheck =>
    have hc := countP_set_of_get preCount s.workers i (.appending u rec) hg
    simp [preCount] at hc
    simp
    omega
  case appendStep i u rec hg =>
    have hc := countP_set_of_get preCount s.workers i (.bumpingProcessed u) hg
    simp [preCount] at hc
    simp
    omega
  case bumpProcessed i u hg =>
    have hc := countP_set_of_get preCount s.workers i (.discovering u) hg
    simp [preCount] at hc
    simp [update_stats]
    omega
  case discoverLinks i u raw hg =>
    have hc := countP_set_of_get preCount s.workers i (.sleeping u) hg
    simp [preCount] at hc
    simp [update_stats]
    omega
  case sleepStepEnd i u hg =>
    have hc := countP_set_of_get preCount s.workers i .loopHead hg
    simp [preCount] at hc
    simp
    omega
  case failBump i u hg =>
    have hc := countP_set_of_get preCount s.workers i (.failAck u) hg
    simp [preCount] at hc
    simp [update_stats]
    omega
  case failAckStep i u hg =>
    have hc := countP_set_of_get preCount s.workers i .loopHead hg
    simp [preCount] at hc
    simp
    omega
  case deadlineStop =>
    simp [stop_crawling]
    omega
  case cancelWorker i pc hg =>
    have hc := countP_set_of_get preCount s.workers i .exited hg
    have hex : preCount .exited = false := rfl
    rw [hex] at hc
    simp at hc ⊢
    omega

theorem pastBump_imp_holding {pc : WStatus} (h : pastBump pc = true) :
    holding pc = true := by
  cases pc <;> simp_all [pastBump, holding]

/-- The processed counter is covered by leaked tokens plus workers past
their `update_stats(processed=1)` (step preservation). -/
theorem procInv_step {cfg : CrawlerSettings} {s : Sys} {l : StepLabel} {s' : Sys}
    (h : GStep cfg s l s')
    (ih : s.shared.stats.total_processed ≤
      s.leaked + s.workers.countP pastBump) :
    s'.shared.stats.total_processed ≤ s'.leaked + s'.workers.countP pastBump := by
  cases h
  case stopExit i hg hs =>
    have hc := countP_set_of_get pastBump s.workers i .exited hg
    simp [pastBump] at hc
    simp
    omega
  case toGet i hg hs =>
    have hc := countP_set_of_get pastBump s.workers i .atGet hg
    simp [pastBump] at hc
    simp
    omega
  case getItem i u rest hg hq =>
    have hc := countP_set_of_get pastBump s.workers i (.admitting u) hg
    simp [pastBump] at hc
    simp
    omega
  case getTimeoutEmpty i hg hq =>
    have hc := countP_set_of_get pastBump s.workers i .exited hg
    simp [pastBump] at hc
    simp
    omega
  case getTimeoutBusy i hg hq =>
    have hc := countP_set_of_get pastBump s.workers i .loopHead hg
    simp [pastBump] at hc
    simp
    omega
  case admitDup i u hg hv =>
    have hc := countP_set_of_get pastBump s.workers i (.dupAck u) hg
    simp [pastBump] at hc
    simp
    omega
  case admitNew i u hg hv =>
    have hc := countP_set_of_get pastBump s.workers i (.fetching u 0) hg
    simp [pastBump] at hc
    simp
    omega
  case dupAckStep i u hg =>
    have hc := countP_set_of_get pastBump s.workers i .loopHead hg
    simp [pastBump] at hc
    simp
    omega
  case fetchOk i u a hg =>
    have hc := countP_set_of_get pastBump s.workers i (.extracting u) hg
    simp [pastBump] at hc
    simp
    omega
  case fetchRetry i u a hg ha =>
    have hc := countP_set_of_get pastBump s.workers i (.backingOff u a) hg
    simp [pastBump] at hc
    simp
    omega
  case fetchFailFinal i u hg =>
    have hc := countP_set_of_get pastBump s.workers i (.failing u) hg
    simp [pastBump] at hc
    simp
    omega
  case backoffDone i u a hg =>
    have hc := countP_set_of_get pastBump s.workers i (.fetching u (a + 1)) hg
    simp [pastBump] at hc
    simp
    omega
  case extractOk i u pageUrl title content bytes hg =>
    have hc := countP_set_of_get pastBump s.workers i (.reserving u ⟨pageUrl, title, content, bytes⟩) hg
    simp [pastBump] at hc
    simp
    omega
  case extractFail i u hg =>
    have hc := countP_set_of_get pastBump s.workers i (.failing u) hg
    simp [pastBump] at hc
    simp
    omega
  case reserveReject i u rec hg hcheck =>
    have hc := countP_set_of_get pastBump s.workers i .exited hg
    simp [pastBump] at hc
    simp [stop_crawling]
    omega
  case reserveOk i u rec hg hcheck =>
    have hc := countP_set_of_get pastBump s.workers i (.appending u rec) hg
    simp [pastBump] at hc
    simp
    omega
  case appendStep i u rec hg =>
    have hc := countP_set_of_get pastBump s.workers i (.bumpingProcessed u) hg
    simp [pastBump] at hc
    simp
    omega
  case bumpProcessed i u hg =>
    have hc := countP_set_of_get pastBump s.workers i (.discovering u) hg
    simp [pastBump] at hc
    simp [update_stats]
    omega
  case discoverLinks i u raw hg =>
    have hc := countP_set_of_get pastBump s.workers i (.sleeping u) hg
    simp [pastBump] at hc
    simp [update_stats]
    omega
  case sleepStepEnd i u hg =>
    have hc := countP_set_of_get pastBump s.workers i .loopHead hg
    simp [pastBump] at hc
    simp
    omega
  case failBump i u hg =>
    have hc := countP_set_of_get pastBump s.workers i (.failAck u) hg
    simp [pastBump] at hc
    simp [update_stats]
    omega
  case failAckStep i u hg =>
    have hc := countP_set_of_get pastBump s.workers i .loopHead hg
    simp [pastBump] at hc
    simp
    omega
  case deadlineStop =>
    simp [stop_crawling]
    omega
  case cancelWorker i pc hg =>
    have hc := countP_set_of_get pastBump s.workers i .exited hg
    have hex : pastBump .exited = false := rfl
    rw [hex] at hc
    have hle : (if pastBump pc = true then (1 : Nat) else 0) ≤
        (if holding pc = true then 1 else 0) := by
      cases hpb : pastBump pc
      · simp
      · simp [pastBump_imp_holding hpb]
    simp at hc ⊢
    omega

/-- A url in the visited set is never (re-)enqueued by any step: new queue
members were already in the queue or are unvisited. -/
theorem no_reenqueue_step {cfg : CrawlerSettings} {s : Sys} {l : StepLabel} {s' : Sys}
    (h : GStep cfg s l s') :
    ∀ u, u ∈ s.shared.visited_urls → u ∈ s'.shared.queue →
      u ∈ s.shared.queue := by
  intro u hv hq
  cases h <;> simp_all [stop_crawling]
  case discoverLinks i v raw hg =>
    rcases hq with hq | hq
    · exact hq
    · exfalso
      have := List.of_mem_filter hq
      simp at this
      exact this hv

/-- In-flight records keep agreeing with their workers' requested urls as
long as the step's extraction (if any) was not redirected. -/
theorem pcsNR_step {cfg : CrawlerSettings} {s : Sys} {l : StepLabel} {s' : Sys}
    (h : GStep cfg s l s')
    (hl : ∀ i v pu, l = StepLabel.extractL i v pu → pu = v)
    (ihnr : ∀ pc ∈ s.workers, pcNoRedirect pc) :
    ∀ pc ∈ s'.workers, pcNoRedirect pc := by
  cases h
  case deadlineStop =>
    intro pc hpc
    exact ihnr _ (by simpa using hpc)
  case extractOk i u pageUrl title content bytes hg =>
    intro pc hpc
    rcases List.mem_or_eq_of_mem_set (by simpa using hpc) with hmem | rfl
    · exact ihnr _ hmem
    · simp only [pcNoRedirect]
      exact hl i u pageUrl rfl
  case reserveOk i u rec hg hcheck =>
    intro pc hpc
    rcases List.mem_or_eq_of_mem_set (by simpa using hpc) with hmem | rfl
    · exact ihnr _ hmem
    · have := ihnr _ (mem_of_get hg)
      simpa [pcNoRedirect] using this
  all_goals (
    intro pc hpc
    rcases List.mem_or_eq_of_mem_set (by simpa using hpc) with hmem | rfl
    · exact ihnr _ hmem
    · trivial)

/-- Per-url ownership accounting (step preservation), in states whose
in-flight records agree with their requested urls: the records already in
`results` for url `u` plus the workers still able to append one for `u`
are covered by `u`'s presence in the visited set. -/
theorem resultsInv_step {cfg : CrawlerSettings} {s : Sys} {l : StepLabel} {s' : Sys}
    (h : GStep cfg s l s')
    (ihnr : ∀ pc ∈ s.workers, pcNoRedirect pc)
    (ih : ∀ u, (s.shared.results.filter (fun r => r.url == u)).length +
      s.workers.countP (owns u) ≤
      (if u ∈ s.shared.visited_urls then 1 else 0)) :
    ∀ u, (s'.shared.results.filter (fun r => r.url == u)).length +
      s'.workers.countP (owns u) ≤
      (if u ∈ s'.shared.visited_urls then 1 else 0) := by
  cases h
  case stopExit i hg hs =>
    intro u
    have ihu := ih u
    have hc := countP_set_of_get (owns u) s.workers i .exited hg
    simp [owns] at hc
    simp
    omega
  case toGet i hg hs =>
    intro u
    have ihu := ih u
    have hc := countP_set_of_get (owns u) s.workers i .atGet hg
    simp [owns] at hc
    simp
    omega
  case getItem i v rest hg hq =>
    intro u
    have ihu := ih u
    have hc := countP_set_of_get (owns u) s.workers i (.admitting v) hg
    simp [owns] at hc
    simp
    omega
  case getTimeoutEmpty i hg hq =>
    intro u
    have ihu := ih u
    have hc := countP_set_of_get (owns u) s.workers i .exited hg
    simp [owns] at hc
    simp
    omega
  case getTimeoutBusy i hg hq =>
    intro u
    have ihu := ih u
    have hc := countP_set_of_get (owns u) s.workers i .loopHead hg
    simp [owns] at hc
    simp
    omega
  case admitDup i v hg hv =>
    intro u
    have ihu := ih u
    have hc := countP_set_of_get (owns u) s.workers i (.dupAck v) hg
    simp [owns] at hc
    simp [(avu_snd_false hv).2]
    omega
  case admitNew i v hg hv =>
    intro u
    have ihu := ih u
    have hc := countP_set_of_get (owns u) s.workers i (.fetching v 0) hg
    obtain ⟨hnv, hfst⟩ := avu_snd_true hv
    by_cases hvu : v = u
    · subst hvu
      simp [owns] at hc
      rw [if_neg hnv] at ihu
      simp [hfst]
      omega
    · have hmm : u ∈ v :: s.shared.visited_urls ↔ u ∈ s.shared.visited_urls := by
        constructor
        · intro hm
          rcases List.mem_cons.mp hm with hm | hm
          · exact absurd hm.symm hvu
          · exact hm
        · exact List.mem_cons_of_mem _
      simp [owns, hvu] at hc
      simp [hfst, hmm]
      omega
  case dupAckStep i v hg =>
    intro u
    have ihu := ih u
    have hc := countP_set_of_get (owns u) s.workers i .loopHead hg
    simp [owns] at hc
    simp
    omega
  case fetchOk i v a hg =>
    intro u
    have ihu := ih u
    have hc := countP_set_of_get (owns u) s.workers i (.extracting v) hg
    simp [owns] at hc
    simp
    omega
  case fetchRetry i v a hg ha =>
    intro u
    have ihu := ih u
    have hc := countP_set_of_get (owns u) s.workers i (.backingOff v a) hg
    simp [owns] at hc
    simp
    omega
  case fetchFailFinal i v hg =>
    intro u
    have ihu := ih u
    have hc := countP_set_of_get (owns u) s.workers i (.failing v) hg
    simp [owns] at hc
    simp
    omega
  case backoffDone i v a hg =>
    intro u
    have ihu := ih u
    have hc := countP_set_of_get (owns u) s.workers i (.fetching v (a + 1)) hg
    simp [owns] at hc
    simp
    omega
  case extractOk i v pageUrl title content bytes hg =>
    intro u
    have ihu := ih u
    have hc := countP_set_of_get (owns u) s.workers i
      (.reserving v ⟨pageUrl, title, content, bytes⟩) hg
    simp [owns] at hc
    simp
    omega
  case extractFail i v hg =>
    intro u
    have ihu := ih u
    have hc := countP_set_of_get (owns u) s.workers i (.failing v) hg
    simp [owns] at hc
    simp
    omega
  case reserveReject i v rec hg hcheck =>
    intro u
    have ihu := ih u
    have hc := countP_set_of_get (owns u) s.workers i .exited hg
    simp [owns] at hc
    simp [stop_crawling]
    omega
  case reserveOk i v rec hg hcheck =>
    intro u
    have ihu := ih u
    have hc := countP_set_of_get (owns u) s.workers i (.appending v rec) hg
    simp [owns] at hc
    simp
    omega
  case appendStep i v rec hg =>
    intro u
    have ihu := ih u
    have hnr := ihnr _ (mem_of_get hg)
    simp only [pcNoRedirect] at hnr
    have hc := countP_set_of_get (owns u) s.workers i (.bumpingProcessed v) hg
    simp [owns] at hc
    by_cases hvu : v = u
    · subst hvu
      simp at hc
      simp [List.filter_append, hnr]
      omega
    · rw [if_neg hvu] at hc
      simp [List.filter_append, hnr, hvu]
      omega
  case bumpProcessed i v hg =>
    intro u
    have ihu := ih u
    have hc := countP_set_of_get (owns u) s.workers i (.discovering v) hg
    simp [owns] at hc
    simp
    omega
  case discoverLinks i v raw hg =>
    intro u
    have ihu := ih u
    have hc := countP_set_of_get (owns u) s.workers i (.sleeping v) hg
    simp [owns] at hc
    simp
    omega
  case sleepStepEnd i v hg =>
    intro u
    have ihu := ih u
    have hc := countP_set_of_get (owns u) s.workers i .loopHead hg
    simp [owns] at hc
    simp
    omega
  case failBump i v hg =>
    intro u
    have ihu := ih u
    have hc := countP_set_of_get (owns u) s.workers i (.failAck v) hg
    simp [owns] at hc
    simp
    omega
  case failAckStep i v hg =>
    intro u
    have ihu := ih u
    have hc := countP_set_of_get (owns u) s.workers i .loopHead hg
    simp [owns] at hc
    simp
    omega
  case deadlineStop =>
    intro u
    have ihu := ih u
    simp [stop_crawling]
    omega
  case cancelWorker i pc hg =>
    intro u
    have ihu := ih u
    have hc := countP_set_of_get (owns u) s.workers i .exited hg
    have hex : owns u .exited = false := rfl
    rw [hex] at hc
    simp at hc ⊢
    omega

theorem goodSeq_snoc_false {bs : List Bool} (h : goodSeq bs = true)
    (hne : bs ≠ []) : goodSeq (bs ++ [false]) = true := by
  cases bs with
  | nil => exact absurd rfl hne
  | cons b t =>
    simp [goodSeq, List.all_append] at h ⊢
    exact h

/-- Trace invariant behind C2: starting from a state that has not visited
`u`, the recorded `add_visited_url u` results are `true` once then `false`,
and `u` is visited exactly when some call was recorded. -/
theorem admitResults_append (u : String) (ls₁ ls₂ : List StepLabel) :
    admitResults u (ls₁ ++ ls₂) = admitResults u ls₁ ++ admitResults u ls₂ := by
  simp [admitResults]

theorem admitSeq_inv {cfg : CrawlerSettings} {s₀ : Sys} {ls : List StepLabel}
    {s : Sys} (hrun : Run cfg s₀ ls s) (u : String)
    (h0 : u ∉ s₀.shared.visited_urls) :
    goodSeq (admitResults u ls) = true ∧
      (u ∈ s.shared.visited_urls ↔ admitResults u ls ≠ []) := by
  induction hrun with
  | refl => exact ⟨rfl, by simp [admitResults, h0]⟩
  | @snoc ls' s₂ l s₃ h₁ h₂ ih =>
    obtain ⟨ihg, ihm⟩ := ih
    cases h₂
    case admitNew i v hg hv =>
      obtain ⟨hnv, hfst⟩ := avu_snd_true hv
      rw [admitResults_append]
      by_cases hvu : v = u
      · subst hvu
        have hemp : admitResults v ls' = [] := by
          by_contra hne
          exact hnv (ihm.mpr hne)
        have hone : admitResults v [StepLabel.admitT i v] = [true] := by
          simp [admitResults]
        rw [hemp, hone]
        exact ⟨rfl, by simp [hfst]⟩
      · have hnil : admitResults u [StepLabel.admitT i v] = [] := by
          simp [admitResults, hvu]
        rw [hnil, List.append_nil]
        refine ⟨ihg, ?_⟩
        simp only [hfst]
        simp only [List.mem_cons]
        constructor
        · intro hm
          rcases hm with hm | hm
          · exact absurd hm.symm hvu
          · exact ihm.mp hm
        · intro hne
          exact Or.inr (ihm.mpr hne)
    case admitDup i v hg hv =>
      obtain ⟨hin, hfst⟩ := avu_snd_false hv
      rw [admitResults_append]
      by_cases hvu : v = u
      · subst hvu
        have hne : admitResults v ls' ≠ [] := ihm.mp hin
        have hone : admitResults v [StepLabel.admitF i v] = [false] := by
          simp [admitResults]
        rw [hone]
        refine ⟨goodSeq_snoc_false ihg hne, ?_⟩
        simp only [hfst]
        simp
        exact hin
      · have hnil : admitResults u [StepLabel.admitF i v] = [] := by
          simp [admitResults, hvu]
        rw [hnil, List.append_nil]
        refine ⟨ihg, ?_⟩
        simp only [hfst]
        exact ihm
    all_goals (
      rw [admitResults_append]
      constructor
      · simpa [admitResults] using ihg
      · simpa [admitResults, stop_crawling] using ihm)

theorem countP_replicate_zero {α : Type} (p : α → Bool) (n : Nat) (a : α)
    (h : p a = false) : (List.replicate n a).countP p = 0 := by
  induction n with
  | zero => rfl
  | succ m ih => simp [List.replicate_succ, List.countP_cons, h, ih]

theorem reach_storage_le {cfg : CrawlerSettings} {seed : String} {n : Nat}
    {s : Sys} (h : Reach cfg seed n s) :
    s.shared.storage_stats.total_bytes ≤ s.shared.storage_stats.max_bytes := by
  obtain ⟨ls, hrun⟩ := h
  exact run_preserve (fun s l s' hs => storageInv_step hs) hrun (by simp [initSys])

theorem reach_token {cfg : CrawlerSettings} {seed : String} {n : Nat}
    {s : Sys} (h : Reach cfg seed n s) :
    s.shared.unfinished_tasks =
      s.shared.queue.length + s.workers.countP holding + s.leaked := by
  obtain ⟨ls, hrun⟩ := h
  refine run_preserve (fun s l s' hs => tokenInv_step hs) hrun ?_
  simp [initSys, countP_replicate_zero holding n .loopHead rfl]

theorem reach_proc {cfg : CrawlerSettings} {seed : String} {n : Nat}
    {s : Sys} (h : Reach cfg seed n s) :
    s.shared.stats.total_processed ≤ s.leaked + s.workers.countP pastBump := by
  obtain ⟨ls, hrun⟩ := h
  refine run_preserve (fun s l s' hs => procInv_step hs) hrun ?_
  simp [initSys]

theorem reach_statsBound {cfg : CrawlerSettings} {seed : String} {n : Nat}
    {s : Sys} (h : Reach cfg seed n s) :
    s.shared.stats.total_processed + s.shared.stats.total_failed +
      s.shared.queue.length + s.workers.countP preCount ≤
      s.shared.stats.total_queued + 1 := by
  obtain ⟨ls, hrun⟩ := h
  refine run_preserve (fun s l s' hs => statsInv_step hs) hrun ?_
  simp [initSys, countP_replicate_zero preCount n .loopHead rfl]

theorem reach_attempts {cfg : CrawlerSettings} {seed : String} {n : Nat}
    {s : Sys} (h : Reach cfg seed n s) :
    ∀ pc ∈ s.workers, pcAttemptOK pc := by
  obtain ⟨ls, hrun⟩ := h
  refine run_preserve (fun s l s' hs => attemptInv_step hs) hrun ?_
  intro pc hpc
  have := List.eq_of_mem_replicate hpc
  subst this
  trivial

/-- In a run whose extractions were never redirected, the in-flight
record agreement and the per-url ownership accounting both hold at the
end. -/
theorem run_resultsNR {cfg : CrawlerSettings} {s₀ : Sys} {ls : List StepLabel}
    {s : Sys} (hrun : Run cfg s₀ ls s) :
    NoRedirectRun ls →
    (∀ pc ∈ s₀.workers, pcNoRedirect pc) →
    (∀ u, (s₀.shared.results.filter (fun r => r.url == u)).length +
      s₀.workers.countP (owns u) ≤
      (if u ∈ s₀.shared.visited_urls then 1 else 0)) →
    (∀ pc ∈ s.workers, pcNoRedirect pc) ∧
    (∀ u, (s.shared.results.filter (fun r => r.url == u)).length +
      s.workers.countP (owns u) ≤
      (if u ∈ s.shared.visited_urls then 1 else 0)) := by
  induction hrun with
  | refl => exact fun _ h1 h2 => ⟨h1, h2⟩
  | @snoc ls' s₂ l s₃ h₁ h₂ ih =>
    intro hnr h1 h2
    have hpre := ih (fun i v pu hm => hnr i v pu (List.mem_append.mpr (Or.inl hm)))
      h1 h2
    have hli : ∀ i v pu, l = StepLabel.extractL i v pu → pu = v := by
      intro i v pu hl
      refine hnr i v pu (List.mem_append.mpr (Or.inr ?_))
      rw [← hl]
      exact List.mem_singleton_self l
    exact ⟨pcsNR_step h₂ hli hpre.1, resultsInv_step h₂ hpre.1 hpre.2⟩

/-- Url-field uniqueness of results over a redirect-free run. -/
theorem reach_resultsNR {cfg : CrawlerSettings} {seed : String} {n : Nat}
    {ls : List StepLabel} {s : Sys} (hrun : Run cfg (initSys seed n) ls s)
    (hnr : NoRedirectRun ls) :
    ∀ u, (s.shared.results.filter (fun r => r.url == u)).length ≤ 1 := by
  intro u
  have h := (run_resultsNR hrun hnr
    (fun pc hpc => by rw [List.eq_of_mem_replicate hpc]; trivial)
    (fun u => by simp [initSys, countP_replicate_zero (owns u) n .loopHead rfl])).2 u
  have hle : (if u ∈ s.shared.visited_urls then 1 else 0) ≤ 1 := by
    split <;> omega
  omega

/-- If an element of a list updated at `j` is read at `i`, either the read
hits the update or it reads the untouched list. -/
theorem get_set_eq_or {α : Type} {ws : List α} {j i : Nat} {x y : α}
    (h : (ws.set j x)[i]? = some y) :
    (j = i ∧ y = x) ∨ (j ≠ i ∧ ws[i]? = some y) := by
  rw [List.getElem?_set] at h
  by_cases hji : j = i
  · rw [if_pos hji] at h
    by_cases hlt : j < ws.length
    · rw [if_pos hlt] at h
      exact Or.inl ⟨hji, (Option.some_injective _ h).symm⟩
    · rw [if_neg hlt] at h
      exact absurd h (by simp)
  · rw [if_neg hji] at h
    exact Or.inr ⟨hji, h⟩

/-- A `task_done` step comes exactly from the duplicate-skip path (line 254)
or the failure path (line 310), decrements the unfinished counter, sends
the worker back to its loop head, and touches neither results nor counters. -/
theorem taskDone_char {cfg : CrawlerSettings} {s : Sys} {i : Nat} {s' : Sys}
    (h : GStep cfg s (.taskDoneL i) s') :
    (∃ u, s.workers[i]? = some (.dupAck u) ∨ s.workers[i]? = some (.failAck u)) ∧
    s'.shared.unfinished_tasks = s.shared.unfinished_tasks - 1 ∧
    s'.workers = s.workers.set i .loopHead ∧
    s'.shared.results = s.shared.results ∧
    s'.shared.stats = s.shared.stats ∧
    s'.shared.visited_urls = s.shared.visited_urls := by
  cases h
  case dupAckStep u hg => exact ⟨⟨u, Or.inl hg⟩, by simp⟩
  case failAckStep u hg => exact ⟨⟨u, Or.inr hg⟩, by simp⟩

/-- Steps that shrink the unfinished-task counter are `task_done` steps. -/
theorem unfinished_decrease_char {cfg : CrawlerSettings} {s : Sys}
    {l : StepLabel} {s' : Sys} (h : GStep cfg s l s')
    (hlt : s'.shared.unfinished_tasks < s.shared.unfinished_tasks) :
    ∃ i, l = .taskDoneL i := by
  cases h <;> simp_all [stop_crawling]

/-- The rate-limit sleep step comes exactly from the success path's final
stage (line 298) and returns the worker to the loop head. -/
theorem sleepDelay_char {cfg : CrawlerSettings} {s : Sys} {i : Nat} {s' : Sys}
    (h : GStep cfg s (.sleepDelayL i) s') :
    ∃ u, s.workers[i]? = some (.sleeping u) ∧
      s'.workers = s.workers.set i .loopHead := by
  cases h
  case sleepStepEnd u hg => exact ⟨u, hg, rfl⟩

/-- A backoff sleep of `m` seconds happens exactly between a failed attempt
`a` and attempt `a + 1`, with `m = 2 ^ a`. -/
theorem sleepBackoff_char {cfg : CrawlerSettings} {s : Sys} {i m : Nat} {s' : Sys}
    (h : GStep cfg s (.sleepBackoffL i m) s') :
    ∃ u a, s.workers[i]? = some (.backingOff u a) ∧ m = 2 ^ a ∧
      s'.workers = s.workers.set i (.fetching u (a + 1)) := by
  cases h
  case backoffDone u a hg => exact ⟨u, a, hg, rfl, rfl⟩

/-- The failed counter moves only by the except-block step (line 307), by
exactly one, from a worker in the failure path that then proceeds to its
`task_done`; nothing else changes. -/
theorem failed_increase_char {cfg : CrawlerSettings} {s : Sys}
    {l : StepLabel} {s' : Sys} (h : GStep cfg s l s')
    (hlt : s.shared.stats.total_failed < s'.shared.stats.total_failed) :
    s'.shared.stats.total_failed = s.shared.stats.total_failed + 1 ∧
    ∃ i u, s.workers[i]? = some (.failing u) ∧
      s'.workers = s.workers.set i (.failAck u) ∧
      s'.shared.results = s.shared.results ∧
      s'.shared.queue = s.shared.queue := by
  cases h <;> simp_all [stop_crawling, update_stats]
  case failBump i u hg => exact ⟨i, u, hg, rfl⟩

/-- A duplicate admission (the `False` return of `add_visited_url`) is a
pure no-op on the shared data: nothing but the worker's control point moves. -/
theorem admitF_char {cfg : CrawlerSettings} {s : Sys} {i : Nat} {u : String}
    {s' : Sys} (h : GStep cfg s (.admitF i u) s') :
    s'.shared = s.shared ∧ s'.workers = s.workers.set i (.dupAck u) := by
  cases h
  rename_i hv hg
  exact ⟨(avu_snd_false hv).2, rfl⟩

/-- Classification of how a worker can return to its loop head: the end of
the rate-limit sleep (success path), a `task_done` (duplicate or failure
path), or a dequeue timeout with a non-empty queue. -/
theorem loopHead_entry_char {cfg : CrawlerSettings} {s : Sys} {l : StepLabel}
    {s' : Sys} (h : GStep cfg s l s') (i : Nat) (pc : WStatus)
    (hpc : s.workers[i]? = some pc) (hne : pc ≠ .loopHead)
    (hpost : s'.workers[i]? = some .loopHead) :
    (∃ u, pc = .sleeping u ∧ l = .sleepDelayL i) ∨
    (∃ u, (pc = .dupAck u ∨ pc = .failAck u) ∧ l = .taskDoneL i) ∨
    (pc = .atGet ∧ l = .tau i) := by
  cases h
  case deadlineStop =>
    exact absurd (Option.some_injective _ (hpc.symm.trans hpost)) hne
  case getTimeoutBusy j hg hq =>
    rcases get_set_eq_or hpost with ⟨hji, _⟩ | ⟨hji, hws⟩
    · subst hji
      exact Or.inr (Or.inr
        ⟨Option.some_injective _ (hpc.symm.trans hg), rfl⟩)
    · exact absurd (Option.some_injective _ (hpc.symm.trans hws)) hne
  case dupAckStep j u hg =>
    rcases get_set_eq_or hpost with ⟨hji, _⟩ | ⟨hji, hws⟩
    · subst hji
      exact Or.inr (Or.inl
        ⟨u, Or.inl (Option.some_injective _ (hpc.symm.trans hg)), rfl⟩)
    · exact absurd (Option.some_injective _ (hpc.symm.trans hws)) hne
  case failAckStep j u hg =>
    rcases get_set_eq_or hpost with ⟨hji, _⟩ | ⟨hji, hws⟩
    · subst hji
      exact Or.inr (Or.inl
        ⟨u, Or.inr (Option.some_injective _ (hpc.symm.trans hg)), rfl⟩)
    · exact absurd (Option.some_injective _ (hpc.symm.trans hws)) hne
  case sleepStepEnd j u hg =>
    rcases get_set_eq_or hpost with ⟨hji, _⟩ | ⟨hji, hws⟩
    · subst hji
      exact Or.inl ⟨u, Option.some_injective _ (hpc.symm.trans hg), rfl⟩
    · exact absurd (Option.some_injective _ (hpc.symm.trans hws)) hne
  all_goals (
    rcases get_set_eq_or hpost with ⟨hji, hyx⟩ | ⟨hji, hws⟩
    · exact absurd hyx (by simp)
    · exact absurd (Option.some_injective _ (hpc.symm.trans hws)) hne)

theorem demo_run3 : Run defaultSettings (initSys "a" 1)
    [.tau 0, .dequeueL 0 "a", .admitT 0 "a"] demoSys3 := by
  have r0 := @Run.refl defaultSettings (initSys "a" 1)
  have t1 := @GStep.toGet defaultSettings (initSys "a" 1) 0 rfl rfl
  have r1 : Run defaultSettings (initSys "a" 1) ([] ++ [.tau 0]) demoSys1 :=
    Run.snoc r0 t1
  have t2 := @GStep.getItem defaultSettings demoSys1 0 "a" [] (by decide) (by decide)
  have r2 : Run defaultSettings (initSys "a" 1)
      ([] ++ [.tau 0] ++ [.dequeueL 0 "a"]) demoSys2 :=
    Run.snoc r1 t2
  have t3 := @GStep.admitNew defaultSettings demoSys2 0 "a" (by decide) (by decide)
  have r3 : Run defaultSettings (initSys "a" 1)
      ([] ++ [.tau 0] ++ [.dequeueL 0 "a"] ++ [.admitT 0 "a"]) demoSys3 :=
    Run.snoc r2 t3
  exact r3

theorem demo_run8 : Run defaultSettings (initSys "a" 1)
    [.tau 0, .dequeueL 0 "a", .admitT 0 "a", .tau 0, .extractL 0 "a" "a", .tau 0,
     .tau 0, .tau 0] demoSys8 := by
  have r3 := demo_run3
  have t4 := @GStep.fetchOk defaultSettings demoSys3 0 "a" 0 (by decide)
  have r4 : Run defaultSettings (initSys "a" 1)
      ([.tau 0, .dequeueL 0 "a", .admitT 0 "a"] ++ [.tau 0]) demoSys4 :=
    Run.snoc r3 t4
  have t5 := @GStep.extractOk defaultSettings demoSys4 0 "a" "a" "t" "c" 100 (by decide)
  have r5 : Run defaultSettings (initSys "a" 1)
      ([.tau 0, .dequeueL 0 "a", .admitT 0 "a"] ++ [.tau 0] ++ [.extractL 0 "a" "a"])
      demoSys5 :=
    Run.snoc r4 t5
  have t6 := @GStep.reserveOk defaultSettings demoSys5 0 "a" demoRec (by decide) (by decide)
  have r6 : Run defaultSettings (initSys "a" 1)
      ([.tau 0, .dequeueL 0 "a", .admitT 0 "a"] ++ [.tau 0] ++ [.extractL 0 "a" "a"] ++
        [.tau 0]) demoSys6 :=
    Run.snoc r5 t6
  have t7 := @GStep.appendStep defaultSettings demoSys6 0 "a" demoRec (by decide)
  have r7 : Run defaultSettings (initSys "a" 1)
      ([.tau 0, .dequeueL 0 "a", .admitT 0 "a"] ++ [.tau 0] ++ [.extractL 0 "a" "a"] ++
        [.tau 0] ++ [.tau 0]) demoSys7 :=
    Run.snoc r6 t7
  have t8 := @GStep.bumpProcessed defaultSettings demoSys7 0 "a" (by decide)
  have r8 : Run defaultSettings (initSys "a" 1)
      ([.tau 0, .dequeueL 0 "a", .admitT 0 "a"] ++ [.tau 0] ++ [.extractL 0 "a" "a"] ++
        [.tau 0] ++ [.tau 0] ++ [.tau 0]) demoSys8 :=
    Run.snoc r7 t8
  exact r8

/-- A reachable state in which worker 1 has just counted a three-times
retried url as failed, while an unrelated discovered link is pending. -/
theorem cRun18 : Run cfg0 (initSys "a" 2)
    [.tau 0, .dequeueL 0 "a", .admitT 0 "a", .tau 0, .extractL 0 "a" "a", .tau 0,
     .tau 0, .tau 0, .tau 0, .tau 1, .dequeueL 1 "b", .admitT 1 "b", .tau 1, .sleepBackoffL 1 (2 ^ 0),
     .tau 1, .sleepBackoffL 1 (2 ^ 1), .tau 1, .tau 1] cSys18 := by
  have r0 := @Run.refl cfg0 (initSys "a" 2)
  have r1 : Run cfg0 (initSys "a" 2) ([] ++ [.tau 0]) cSys1 :=
    Run.snoc r0 (@GStep.toGet cfg0 (initSys "a" 2) 0 rfl rfl)
  have r2 : Run cfg0 (initSys "a" 2) ([] ++ [.tau 0] ++ [.dequeueL 0 "a"]) cSys2 :=
    Run.snoc r1 (@GStep.getItem cfg0 cSys1 0 "a" [] (by decide) (by decide))
  have r3 : Run cfg0 (initSys "a" 2)
      ([] ++ [.tau 0] ++ [.dequeueL 0 "a"] ++ [.admitT 0 "a"]) cSys3 :=
    Run.snoc r2 (@GStep.admitNew cfg0 cSys2 0 "a" (by decide) (by decide))
  have r4 : Run cfg0 (initSys "a" 2)
      ([] ++ [.tau 0] ++ [.dequeueL 0 "a"] ++ [.admitT 0 "a"] ++ [.tau 0]) cSys4 :=
    Run.snoc r3 (@GStep.fetchOk cfg0 cSys3 0 "a" 0 (by decide))
  have r5 : Run cfg0 (initSys "a" 2)
      ([] ++ [.tau 0] ++ [.dequeueL 0 "a"] ++ [.admitT 0 "a"] ++ [.tau 0] ++ [.extractL 0 "a" "a"])
      cSys5 :=
    Run.snoc r4 (@GStep.extractOk cfg0 cSys4 0 "a" "a" "t" "c" 10 (by decide))
  have r6 : Run cfg0 (initSys "a" 2)
      ([] ++ [.tau 0] ++ [.dequeueL 0 "a"] ++ [.admitT 0 "a"] ++ [.tau 0] ++ [.extractL 0 "a" "a"] ++
        [.tau 0]) cSys6 :=
    Run.snoc r5 (@GStep.reserveOk cfg0 cSys5 0 "a" cRec (by decide) (by decide))
  have r7 : Run cfg0 (initSys "a" 2)
      ([] ++ [.tau 0] ++ [.dequeueL 0 "a"] ++ [.admitT 0 "a"] ++ [.tau 0] ++ [.extractL 0 "a" "a"] ++
        [.tau 0] ++ [.tau 0]) cSys7 :=
    Run.snoc r6 (@GStep.appendStep cfg0 cSys6 0 "a" cRec (by decide))
  have r8 : Run cfg0 (initSys "a" 2)
      ([] ++ [.tau 0] ++ [.dequeueL 0 "a"] ++ [.admitT 0 "a"] ++ [.tau 0] ++ [.extractL 0 "a" "a"] ++
        [.tau 0] ++ [.tau 0] ++ [.tau 0]) cSys8 :=
    Run.snoc r7 (@GStep.bumpProcessed cfg0 cSys7 0 "a" (by decide))
  have r9 : Run cfg0 (initSys "a" 2)
      ([] ++ [.tau 0] ++ [.dequeueL 0 "a"] ++ [.admitT 0 "a"] ++ [.tau 0] ++ [.extractL 0 "a" "a"] ++
        [.tau 0] ++ [.tau 0] ++ [.tau 0] ++ [.tau 0]) cSys9 :=
    Run.snoc r8 (@GStep.discoverLinks cfg0 cSys8 0 "a" ["b", "c"] (by decide))
  have r10 : Run cfg0 (initSys "a" 2)
      ([] ++ [.tau 0] ++ [.dequeueL 0 "a"] ++ [.admitT 0 "a"] ++ [.tau 0] ++ [.extractL 0 "a" "a"] ++
        [.tau 0] ++ [.tau 0] ++ [.tau 0] ++ [.tau 0] ++ [.tau 1]) cSys10 :=
    Run.snoc r9 (@GStep.toGet cfg0 cSys9 1 (by decide) (by decide))
  have r11 : Run cfg0 (initSys "a" 2)
      ([] ++ [.tau 0] ++ [.dequeueL 0 "a"] ++ [.admitT 0 "a"] ++ [.tau 0] ++ [.extractL 0 "a" "a"] ++
        [.tau 0] ++ [.tau 0] ++ [.tau 0] ++ [.tau 0] ++ [.tau 1] ++ [.dequeueL 1 "b"])
      cSys11 :=
    Run.snoc r10 (@GStep.getItem cfg0 cSys10 1 "b" ["c"] (by decide) (by decide))
  have r12 : Run cfg0 (initSys "a" 2)
      ([] ++ [.tau 0] ++ [.dequeueL 0 "a"] ++ [.admitT 0 "a"] ++ [.tau 0] ++ [.extractL 0 "a" "a"] ++
        [.tau 0] ++ [.tau 0] ++ [.tau 0] ++ [.tau 0] ++ [.tau 1] ++ [.dequeueL 1 "b"] ++
        [.admitT 1 "b"]) cSys12 :=
    Run.snoc r11 (@GStep.admitNew cfg0 cSys11 1 "b" (by decide) (by decide))
  have r13 : Run cfg0 (initSys "a" 2)
      ([] ++ [.tau 0] ++ [.dequeueL 0 "a"] ++ [.admitT 0 "a"] ++ [.tau 0] ++ [.extractL 0 "a" "a"] ++
        [.tau 0] ++ [.tau 0] ++ [.tau 0] ++ [.tau 0] ++ [.tau 1] ++ [.dequeueL 1 "b"] ++
        [.admitT 1 "b"] ++ [.tau 1]) cSys13 :=
    Run.snoc r12 (@GStep.fetchRetry cfg0 cSys12 1 "b" 0 (by decide) (by decide))
  have r14 : Run cfg0 (initSys "a" 2)
      ([] ++ [.tau 0] ++ [.dequeueL 0 "a"] ++ [.admitT 0 "a"] ++ [.tau 0] ++ [.extractL 0 "a" "a"] ++
        [.tau 0] ++ [.tau 0] ++ [.tau 0] ++ [.tau 0] ++ [.tau 1] ++ [.dequeueL 1 "b"] ++
        [.admitT 1 "b"] ++ [.tau 1] ++ [.sleepBackoffL 1 (2 ^ 0)]) cSys14 :=
    Run.snoc r13 (@GStep.backoffDone cfg0 cSys13 1 "b" 0 (by decide))
  have r15 : Run cfg0 (initSys "a" 2)
      ([] ++ [.tau 0] ++ [.dequeueL 0 "a"] ++ [.admitT 0 "a"] ++ [.tau 0] ++ [.extractL 0 "a" "a"] ++
        [.tau 0] ++ [.tau 0] ++ [.tau 0] ++ [.tau 0] ++ [.tau 1] ++ [.dequeueL 1 "b"] ++
        [.admitT 1 "b"] ++ [.tau 1] ++ [.sleepBackoffL 1 (2 ^ 0)] ++ [.tau 1]) cSys15 :=
    Run.snoc r14 (@GStep.fetchRetry cfg0 cSys14 1 "b" 1 (by decide) (by decide))
  have r16 : Run cfg0 (initSys "a" 2)
      ([] ++ [.tau 0] ++ [.dequeueL 0 "a"] ++ [.admitT 0 "a"] ++ [.tau 0] ++ [.extractL 0 "a" "a"] ++
        [.tau 0] ++ [.tau 0] ++ [.tau 0] ++ [.tau 0] ++ [.tau 1] ++ [.dequeueL 1 "b"] ++
        [.admitT 1 "b"] ++ [.tau 1] ++ [.sleepBackoffL 1 (2 ^ 0)] ++ [.tau 1] ++
        [.sleepBackoffL 1 (2 ^ 1)]) cSys16 :=
    Run.snoc r15 (@GStep.backoffDone cfg0 cSys15 1 "b" 1 (by decide))
  have r17 : Run cfg0 (initSys "a" 2)
      ([] ++ [.tau 0] ++ [.dequeueL 0 "a"] ++ [.admitT 0 "a"] ++ [.tau 0] ++ [.extractL 0 "a" "a"] ++
        [.tau 0] ++ [.tau 0] ++ [.tau 0] ++ [.tau 0] ++ [.tau 1] ++ [.dequeueL 1 "b"] ++
        [.admitT 1 "b"] ++ [.tau 1] ++ [.sleepBackoffL 1 (2 ^ 0)] ++ [.tau 1] ++
        [.sleepBackoffL 1 (2 ^ 1)] ++ [.tau 1]) cSys17 :=
    Run.snoc r16 (@GStep.fetchFailFinal cfg0 cSys16 1 "b" (by decide))
  have r18 : Run cfg0 (initSys "a" 2)
      ([] ++ [.tau 0] ++ [.dequeueL 0 "a"] ++ [.admitT 0 "a"] ++ [.tau 0] ++ [.extractL 0 "a" "a"] ++
        [.tau 0] ++ [.tau 0] ++ [.tau 0] ++ [.tau 0] ++ [.tau 1] ++ [.dequeueL 1 "b"] ++
        [.admitT 1 "b"] ++ [.tau 1] ++ [.sleepBackoffL 1 (2 ^ 0)] ++ [.tau 1] ++
        [.sleepBackoffL 1 (2 ^ 1)] ++ [.tau 1] ++ [.tau 1]) cSys18 :=
    Run.snoc r17 (@GStep.failBump cfg0 cSys17 1 "b" (by decide))
  exact r18

/-- A concrete run in which the renderer redirects both admitted urls
`"a"` and `"b"` to the same final page `"c"`: the worker records
`page.url = "c"` twice (crawler.py:142), once per admission. -/
theorem fRun17 : Run cfg0 (initSys "a" 1)
    [.tau 0, .dequeueL 0 "a", .admitT 0 "a", .tau 0, .extractL 0 "a" "c", .tau 0,
     .tau 0, .tau 0, .tau 0, .sleepDelayL 0, .tau 0, .dequeueL 0 "b", .admitT 0 "b",
     .tau 0, .extractL 0 "b" "c", .tau 0, .tau 0] fSys17 := by
  have r0 := @Run.refl cfg0 (initSys "a" 1)
  have r1 : Run cfg0 (initSys "a" 1) ([] ++ [.tau 0]) fSys1 :=
    Run.snoc r0 (@GStep.toGet cfg0 (initSys "a" 1) 0 rfl rfl)
  have r2 : Run cfg0 (initSys "a" 1) ([] ++ [.tau 0] ++ [.dequeueL 0 "a"]) fSys2 :=
    Run.snoc r1 (@GStep.getItem cfg0 fSys1 0 "a" [] (by decide) (by decide))
  have r3 : Run cfg0 (initSys "a" 1)
      ([] ++ [.tau 0] ++ [.dequeueL 0 "a"] ++ [.admitT 0 "a"]) fSys3 :=
    Run.snoc r2 (@GStep.admitNew cfg0 fSys2 0 "a" (by decide) (by decide))
  have r4 : Run cfg0 (initSys "a" 1)
      ([] ++ [.tau 0] ++ [.dequeueL 0 "a"] ++ [.admitT 0 "a"] ++ [.tau 0]) fSys4 :=
    Run.snoc r3 (@GStep.fetchOk cfg0 fSys3 0 "a" 0 (by decide))
  have r5 : Run cfg0 (initSys "a" 1)
      ([] ++ [.tau 0] ++ [.dequeueL 0 "a"] ++ [.admitT 0 "a"] ++ [.tau 0] ++
        [.extractL 0 "a" "c"]) fSys5 :=
    Run.snoc r4 (@GStep.extractOk cfg0 fSys4 0 "a" "c" "t" "x" 10 (by decide))
  have r6 : Run cfg0 (initSys "a" 1)
      ([] ++ [.tau 0] ++ [.dequeueL 0 "a"] ++ [.admitT 0 "a"] ++ [.tau 0] ++
        [.extractL 0 "a" "c"] ++ [.tau 0]) fSys6 :=
    Run.snoc r5 (@GStep.reserveOk cfg0 fSys5 0 "a" fRecC (by decide) (by decide))
  have r7 : Run cfg0 (initSys "a" 1)
      ([] ++ [.tau 0] ++ [.dequeueL 0 "a"] ++ [.admitT 0 "a"] ++ [.tau 0] ++
        [.extractL 0 "a" "c"] ++ [.tau 0] ++ [.tau 0]) fSys7 :=
    Run.snoc r6 (@GStep.appendStep cfg0 fSys6 0 "a" fRecC (by decide))
  have r8 : Run cfg0 (initSys "a" 1)
      ([] ++ [.tau 0] ++ [.dequeueL 0 "a"] ++ [.admitT 0 "a"] ++ [.tau 0] ++
        [.extractL 0 "a" "c"] ++ [.tau 0] ++ [.tau 0] ++ [.tau 0]) fSys8 :=
    Run.snoc r7 (@GStep.bumpProcessed cfg0 fSys7 0 "a" (by decide))
  have r9 : Run cfg0 (initSys "a" 1)
      ([] ++ [.tau 0] ++ [.dequeueL 0 "a"] ++ [.admitT 0 "a"] ++ [.tau 0] ++
        [.extractL 0 "a" "c"] ++ [.tau 0] ++ [.tau 0] ++ [.tau 0] ++ [.tau 0]) fSys9 :=
    Run.snoc r8 (@GStep.discoverLinks cfg0 fSys8 0 "a" ["b"] (by decide))
  have r10 : Run cfg0 (initSys "a" 1)
      ([] ++ [.tau 0] ++ [.dequeueL 0 "a"] ++ [.admitT 0 "a"] ++ [.tau 0] ++
        [.extractL 0 "a" "c"] ++ [.tau 0] ++ [.tau 0] ++ [.tau 0] ++ [.tau 0] ++
        [.sleepDelayL 0]) fSys10 :=
    Run.snoc r9 (@GStep.sleepStepEnd cfg0 fSys9 0 "a" (by decide))
  have r11 : Run cfg0 (initSys "a" 1)
      ([] ++ [.tau 0] ++ [.dequeueL 0 "a"] ++ [.admitT 0 "a"] ++ [.tau 0] ++
        [.extractL 0 "a" "c"] ++ [.tau 0] ++ [.tau 0] ++ [.tau 0] ++ [.tau 0] ++
        [.sleepDelayL 0] ++ [.tau 0]) fSys11 :=
    Run.snoc r10 (@GStep.toGet cfg0 fSys10 0 (by decide) (by decide))
  have r12 : Run cfg0 (initSys "a" 1)
      ([] ++ [.tau 0] ++ [.dequeueL 0 "a"] ++ [.admitT 0 "a"] ++ [.tau 0] ++
        [.extractL 0 "a" "c"] ++ [.tau 0] ++ [.tau 0] ++ [.tau 0] ++ [.tau 0] ++
        [.sleepDelayL 0] ++ [.tau 0] ++ [.dequeueL 0 "b"]) fSys12 :=
    Run.snoc r11 (@GStep.getItem cfg0 fSys11 0 "b" [] (by decide) (by decide))
  have r13 : Run cfg0 (initSys "a" 1)
      ([] ++ [.tau 0] ++ [.dequeueL 0 "a"] ++ [.admitT 0 "a"] ++ [.tau 0] ++
        [.extractL 0 "a" "c"] ++ [.tau 0] ++ [.tau 0] ++ [.tau 0] ++ [.tau 0] ++
        [.sleepDelayL 0] ++ [.tau 0] ++ [.dequeueL 0 "b"] ++ [.admitT 0 "b"]) fSys13 :=
    Run.snoc r12 (@GStep.admitNew cfg0 fSys12 0 "b" (by decide) (by decide))
  have r14 : Run cfg0 (initSys "a" 1)
      ([] ++ [.tau 0] ++ [.dequeueL 0 "a"] ++ [.admitT 0 "a"] ++ [.tau 0] ++
        [.extractL 0 "a" "c"] ++ [.tau 0] ++ [.tau 0] ++ [.tau 0] ++ [.tau 0] ++
        [.sleepDelayL 0] ++ [.tau 0] ++ [.dequeueL 0 "b"] ++ [.admitT 0 "b"] ++
        [.tau 0]) fSys14 :=
    Run.snoc r13 (@GStep.fetchOk cfg0 fSys13 0 "b" 0 (by decide))
  have r15 : Run cfg0 (initSys "a" 1)
      ([] ++ [.tau 0] ++ [.dequeueL 0 "a"] ++ [.admitT 0 "a"] ++ [.tau 0] ++
        [.extractL 0 "a" "c"] ++ [.tau 0] ++ [.tau 0] ++ [.tau 0] ++ [.tau 0] ++
        [.sleepDelayL 0] ++ [.tau 0] ++ [.dequeueL 0 "b"] ++ [.admitT 0 "b"] ++
        [.tau 0] ++ [.extractL 0 "b" "c"]) fSys15 :=
    Run.snoc r14 (@GStep.extractOk cfg0 fSys14 0 "b" "c" "t" "x" 10 (by decide))
  have r16 : Run cfg0 (initSys "a" 1)
      ([] ++ [.tau 0] ++ [.dequeueL 0 "a"] ++ [.admitT 0 "a"] ++ [.tau 0] ++
        [.extractL 0 "a" "c"] ++ [.tau 0] ++ [.tau 0] ++ [.tau 0] ++ [.tau 0] ++
        [.sleepDelayL 0] ++ [.tau 0] ++ [.dequeueL 0 "b"] ++ [.admitT 0 "b"] ++
        [.tau 0] ++ [.extractL 0 "b" "c"] ++ [.tau 0]) fSys16 :=
    Run.snoc r15 (@GStep.reserveOk cfg0 fSys15 0 "b" fRecC (by decide) (by decide))
  have r17 : Run cfg0 (initSys "a" 1)
      ([] ++ [.tau 0] ++ [.dequeueL 0 "a"] ++ [.admitT 0 "a"] ++ [.tau 0] ++
        [.extractL 0 "a" "c"] ++ [.tau 0] ++ [.tau 0] ++ [.tau 0] ++ [.tau 0] ++
        [.sleepDelayL 0] ++ [.tau 0] ++ [.dequeueL 0 "b"] ++ [.admitT 0 "b"] ++
        [.tau 0] ++ [.extractL 0 "b" "c"] ++ [.tau 0] ++ [.tau 0]) fSys17 :=
    Run.snoc r16 (@GStep.appendStep cfg0 fSys16 0 "b" fRecC (by decide))
  exact r17

/-- C1: in every run (any settings, seed, worker count), the storage
counter never exceeds the cap at any observation point, and a record whose
size would push the total over the cap is rejected wholesale by
`check_storage_limits`: the call returns `False` and leaves the storage
stats entirely unchanged (never partially added). -/
theorem storage_cap_invariant (cfg : CrawlerSettings) :
    (∀ seed n s, Reach cfg seed n s →
      s.shared.storage_stats.total_bytes ≤ s.shared.storage_stats.max_bytes) ∧
    (∀ st sz, st.max_bytes < st.total_bytes + sz →
      (check_storage_limits st sz).2 = false ∧
        (check_storage_limits st sz).1 = st) := by
  constructor
  · intro seed n s hs
    exact reach_storage_le hs
  · intro st sz hover
    have hc : st.total_bytes + sz > st.max_bytes := hover
    simp [check_storage_limits, hc]

theorem storage_cap_invariant_witness :
    demoSys8.shared.storage_stats.total_bytes ≤
      demoSys8.shared.storage_stats.max_bytes ∧
    (check_storage_limits ⟨900, 1000⟩ 200).2 = false ∧
    (check_storage_limits ⟨900, 1000⟩ 200).1 = ⟨900, 1000⟩ :=
  ⟨(storage_cap_invariant defaultSettings).1 "a" 1 demoSys8 ⟨_, demo_run8⟩,
   ((storage_cap_invariant defaultSettings).2 ⟨900, 1000⟩ 200 (by decide)).1,
   ((storage_cap_invariant defaultSettings).2 ⟨900, 1000⟩ 200 (by decide)).2⟩

/-- C2: over any run, for every url the recorded results of the
`add_visited_url` calls form a `true`-once-then-`false` sequence (true
exactly on the first call, regardless of which of the concurrent workers
performs it, since the url lock serialises the calls into the trace
order); a losing duplicate admission changes nothing in the shared state,
its `task_done` changes neither results nor counters, and
`add_visited_url` returns `True` exactly on unvisited urls. -/
theorem admit_exactly_once (cfg : CrawlerSettings) :
    (∀ seed n ls s, Run cfg (initSys seed n) ls s →
      ∀ u, goodSeq (admitResults u ls) = true) ∧
    (∀ s i u s', GStep cfg s (.admitF i u) s' → s'.shared = s.shared) ∧
    (∀ s i s', GStep cfg s (.taskDoneL i) s' →
      s'.shared.results = s.shared.results ∧ s'.shared.stats = s.shared.stats) ∧
    (∀ sh u, (add_visited_url sh u).2 = true ↔ u ∉ sh.visited_urls) := by
  refine ⟨?_, ?_, ?_, ?_⟩
  · intro seed n ls s hrun u
    exact (admitSeq_inv hrun u (by simp [initSys])).1
  · intro s i u s' h
    exact (admitF_char h).1
  · intro s i s' h
    obtain ⟨_, _, _, hres, hstats, _⟩ := taskDone_char h
    exact ⟨hres, hstats⟩
  · intro sh u
    constructor
    · intro h
      exact (avu_snd_true h).1
    · intro h
      simp [add_visited_url, h]

theorem admit_exactly_once_witness :
    goodSeq (admitResults "a"
      [.tau 0, .dequeueL 0 "a", .admitT 0 "a", .tau 0, .extractL 0 "a" "a", .tau 0,
       .tau 0, .tau 0]) = true ∧
    dupSysAfter.shared = dupSys.shared :=
  ⟨(admit_exactly_once defaultSettings).1 "a" 1 _ demoSys8 demo_run8 "a",
   (admit_exactly_once defaultSettings).2.1 dupSys 0 "a" dupSysAfter
     (GStep.admitDup dupSys 0 "a" (by decide) (by decide))⟩

/-- C3: the quota reservation of `add_result` (via `check_storage_limits`)
computes the record's serialized size; if the current total plus that size
exceeds `max_bytes` it returns `False` without mutating any state apart
from setting the stop flag; otherwise it adds the size to the total,
appends the record and returns `True`. -/
theorem try_reserve_spec (sh : SharedState) (rec : PageRec) :
    (sh.storage_stats.max_bytes < sh.storage_stats.total_bytes + rec.bytes →
      (add_result sh rec).2 = false ∧
      (add_result sh rec).1.storage_stats = sh.storage_stats ∧
      (add_result sh rec).1.results = sh.results ∧
      (add_result sh rec).1.visited_urls = sh.visited_urls ∧
      (add_result sh rec).1.stats = sh.stats ∧
      (add_result sh rec).1.queue = sh.queue ∧
      (add_result sh rec).1.unfinished_tasks = sh.unfinished_tasks ∧
      (add_result sh rec).1.stop = true) ∧
    (sh.storage_stats.total_bytes + rec.bytes ≤ sh.storage_stats.max_bytes →
      (add_result sh rec).2 = true ∧
      (add_result sh rec).1.storage_stats.total_bytes =
        sh.storage_stats.total_bytes + rec.bytes ∧
      (add_result sh rec).1.results = sh.results ++ [rec] ∧
      (add_result sh rec).1.stop = sh.stop) := by
  constructor
  · intro hover
    have hc : sh.storage_stats.total_bytes + rec.bytes > sh.storage_stats.max_bytes :=
      hover
    simp [add_result, check_storage_limits, hc, stop_crawling]
  · intro hunder
    have hc : ¬(sh.storage_stats.total_bytes + rec.bytes > sh.storage_stats.max_bytes) := by
      omega
    simp [add_result, check_storage_limits, hc]

theorem try_reserve_spec_witness :
    (add_result wsOver wRec).2 = false ∧
    (add_result wsOver wRec).1.storage_stats = wsOver.storage_stats ∧
    (add_result wsOver wRec).1.stop = true ∧
    (add_result wsUnder wRec).2 = true ∧
    (add_result wsUnder wRec).1.storage_stats.total_bytes = 300 :=
  ⟨((try_reserve_spec wsOver wRec).1 (by decide)).1,
   ((try_reserve_spec wsOver wRec).1 (by decide)).2.1,
   ((try_reserve_spec wsOver wRec).1 (by decide)).2.2.2.2.2.2.2,
   ((try_reserve_spec wsUnder wRec).2 (by decide)).1,
   ((try_reserve_spec wsUnder wRec).2 (by decide)).2.1⟩

/-- C4 counterexample: url-field uniqueness as stated is false on the
code: the record's url field is `page.url` (crawler.py:142) while the
dedup keys on the dequeued url (line 253), so when navigation redirects
two admitted urls to the same final page both records carry that page's
url.  The concrete run admits `"a"` and `"b"`, both redirected to `"c"`,
and ends with two records whose url field is `"c"`. -/
theorem results_url_unique_refuted : ¬ resultsUrlUniqueClaim := by
  intro h
  have := h cfg0 "a" 1 fSys17 ⟨_, fRun17⟩ "c"
  revert this
  decide

/-- C4 (amended): in every run whose extractions were never redirected
(the renderer's `page.url` equals the requested url at every
`extract_content`), the results list holds at most one record per url
field — in general the url field repeats exactly when redirects collide;
and unconditionally, results are append-only along any run (a record once
appended is never mutated or removed: every later results list extends
the earlier one on the left). -/
theorem results_unique_and_append_only (cfg : CrawlerSettings) :
    (∀ seed n ls s, Run cfg (initSys seed n) ls s → NoRedirectRun ls →
      ∀ u, (s.shared.results.filter (fun r => r.url == u)).length ≤ 1) ∧
    (∀ s₁ ls s₂, Run cfg s₁ ls s₂ →
      ∃ t, s₂.shared.results = s₁.shared.results ++ t) := by
  constructor
  · intro seed n ls s hrun hnr u
    exact reach_resultsNR hrun hnr u
  · intro s₁ ls s₂ h
    induction h with
    | refl => exact ⟨[], by simp⟩
    | snoc h₁ h₂ ih =>
      obtain ⟨t, ht⟩ := ih
      obtain ⟨t₂, ht₂⟩ := results_append_step h₂
      exact ⟨t ++ t₂, by rw [ht₂, ht, List.append_assoc]⟩

theorem results_unique_witness :
    (demoSys8.shared.results.filter (fun r => r.url == "a")).length ≤ 1 ∧
    (demoSys8.shared.results.filter (fun r => r.url == "b")).length ≤ 1 :=
  ⟨(results_unique_and_append_only defaultSettings).1 "a" 1 _ demoSys8 demo_run8
      (by intro i v pu hm; simp at hm; rw [hm.2.2, hm.2.1]) "a",
   (results_unique_and_append_only defaultSettings).1 "a" 1 _ demoSys8 demo_run8
      (by intro i v pu hm; simp at hm; rw [hm.2.2, hm.2.1]) "b"⟩

/-- C5: fetch is retried up to 3 attempts (attempt indices are always
< 3, and a backoff only separates non-final attempts), each backoff sleep
is `2 ^ attempt` seconds and leads to attempt `attempt + 1`; a final
failure is counted by exactly one increment of `total_failed`; an admitted
(visited) url stays visited and is never re-enqueued into the queue by any
step; and the failure path's `task_done` returns the worker to its loop
head so it continues with the next dequeue. -/
theorem fetch_retry_policy (cfg : CrawlerSettings) :
    (∀ s i m s', GStep cfg s (.sleepBackoffL i m) s' →
      ∃ u a, s.workers[i]? = some (.backingOff u a) ∧ m = 2 ^ a ∧
        s'.workers = s.workers.set i (.fetching u (a + 1))) ∧
    (∀ seed n s, Reach cfg seed n s →
      ∀ (i : Nat) (u : String) (a : Nat),
        (s.workers[i]? = some (WStatus.fetching u a) → a < 3) ∧
        (s.workers[i]? = some (WStatus.backingOff u a) → a < 2)) ∧
    (∀ s l s', GStep cfg s l s' →
      s.shared.stats.total_failed < s'.shared.stats.total_failed →
      s'.shared.stats.total_failed = s.shared.stats.total_failed + 1) ∧
    (∀ s l s', GStep cfg s l s' → ∀ u, u ∈ s.shared.visited_urls →
      u ∈ s'.shared.visited_urls ∧ (u ∈ s'.shared.queue → u ∈ s.shared.queue)) ∧
    (∀ s i s', GStep cfg s (.taskDoneL i) s' →
      s'.workers = s.workers.set i .loopHead) := by
  refine ⟨?_, ?_, ?_, ?_, ?_⟩
  · intro s i m s' h
    exact sleepBackoff_char h
  · intro seed n s hs i u a
    constructor
    · intro hg
      have := reach_attempts hs _ (mem_of_get hg)
      simp only [pcAttemptOK] at this
      omega
    · intro hg
      have := reach_attempts hs _ (mem_of_get hg)
      simp only [pcAttemptOK] at this
      omega
  · intro s l s' h hlt
    exact (failed_increase_char h hlt).1
  · intro s l s' h u hu
    exact ⟨visited_mono_step h u hu, no_reenqueue_step h u hu⟩
  · intro s i s' h
    exact (taskDone_char h).2.2.1

theorem fetch_retry_policy_witness :
    (0 : Nat) < 3 ∧
    (update_stats cSys17.shared.stats 0 1 0).total_failed =
      cSys17.shared.stats.total_failed + 1 ∧
    "a" ∈ (stop_crawling demoSys8.shared).visited_urls :=
  ⟨((fetch_retry_policy defaultSettings).2.1 "a" 1 demoSys3 ⟨_, demo_run3⟩
      0 "a" 0).1 (by decide),
   (fetch_retry_policy cfg0).2.2.1 cSys17 (.tau 1) _
      (GStep.failBump cSys17 1 "b" (by decide)) (by decide),
   ((fetch_retry_policy defaultSettings).2.2.2.1 demoSys8 .sys _
      (GStep.deadlineStop demoSys8) "a" (by decide)).1⟩

/-- C6 counterexample: the claim's exception clause is false on the code:
`crawl` wraps its whole body, including browser startup, in
`try ... except Exception`, so even a browser-launch failure is caught and
logged and the report is still returned; nothing propagates. -/
theorem startup_failure_swallowed : ¬ startupFailurePropagates := by
  intro h
  have := h (initSys "a" 1)
  simp [crawl_return] at this

/-- C6 (amended): `crawl()` always returns the final report
`{results, stats, storage}` — for a normal completion, for the global
deadline timeout, and for any other exception of the body including
catastrophic startup failure; no error (per-page or otherwise) propagates
to the caller. -/
theorem crawl_always_returns_report :
    ∀ (body : Except PyError Unit) (s : Sys),
      crawl_return body s = Except.ok (mkReport s) := by
  intro body s
  cases body with
  | ok _ => rfl
  | error e => cases e <;> rfl

/-- C7: the three crawl counters are monotonically non-decreasing at every
step, and at every reachable observation point
`total_processed + total_failed ≤ total_queued + 1` (the `+ 1` accounts
for the seed url, enqueued without counting). -/
theorem stats_monotone_and_bounded (cfg : CrawlerSettings) :
    (∀ s l s', GStep cfg s l s' →
      s.shared.stats.total_processed ≤ s'.shared.stats.total_processed ∧
      s.shared.stats.total_failed ≤ s'.shared.stats.total_failed ∧
      s.shared.stats.total_queued ≤ s'.shared.stats.total_queued) ∧
    (∀ seed n s, Reach cfg seed n s →
      s.shared.stats.total_processed + s.shared.stats.total_failed ≤
        s.shared.stats.total_queued + 1) := by
  constructor
  · intro s l s' h
    exact stats_mono_step h
  · intro seed n s hs
    have := reach_statsBound hs
    omega

theorem stats_monotone_witness :
    demoSys8.shared.stats.total_processed + demoSys8.shared.stats.total_failed ≤
      demoSys8.shared.stats.total_queued + 1 ∧
    demoSys8.shared.stats.total_processed ≤
      (stop_crawling demoSys8.shared).stats.total_processed :=
  ⟨(stats_monotone_and_bounded defaultSettings).2 "a" 1 demoSys8 ⟨_, demo_run8⟩,
   ((stats_monotone_and_bounded defaultSettings).1 demoSys8 .sys _
      (GStep.deadlineStop demoSys8)).1⟩

/-- C8 counterexample: the claim is false on the code: the rate-limit
sleep (line 298) sits inside the `try` body after the success path only;
on the failure path the worker goes straight from its `task_done`
(line 310) back to the loop head and the next dequeue.  The concrete
two-worker run exhibits a failed iteration whose completion is followed by
a dequeue with no `SCRAPING_DELAY` sleep in between. -/
theorem no_sleep_after_failure : ¬ sleepsBeforeNextDequeue cfg0 := by
  intro h
  have t19 := @GStep.failAckStep cfg0 cSys18 1 "b" (by decide)
  have t20 := @GStep.toGet cfg0 cSys19 1 (by decide) (by decide)
  have r20 : Run cfg0 cSys19 ([] ++ [.tau 1]) cSys20 := Run.snoc (Run.refl _) t20
  have t21 := @GStep.getItem cfg0 cSys20 1 "c" [] (by decide) (by decide)
  have hres := h "a" 2 _ cSys18 cRun18 1 "b" (.taskDoneL 1) cSys19 (by decide) t19
      ([] ++ [.tau 1]) cSys20 r20 (by intro v; simp)
      "c" (.dequeueL 1 "c") cSys21 t21 rfl
  rcases hres with hres | hres
  · simp at hres
  · simp at hres

/-- C8 (amended): the worker sleeps `SCRAPING_DELAY` after each
successfully processed url, and only then: every delay-sleep step is the
final stage of a success iteration and returns the worker to its loop
head, every duplicate-skip or failure completion returns the worker to the
loop head directly via its `task_done` with no sleep, and the only ways a
worker re-enters the loop head are the success-path sleep, the
duplicate/failure `task_done`, or a dequeue timeout with the queue
non-empty. -/
theorem sleep_only_after_success (cfg : CrawlerSettings) :
    (∀ s i s', GStep cfg s (.sleepDelayL i) s' →
      ∃ u, s.workers[i]? = some (.sleeping u) ∧
        s'.workers = s.workers.set i .loopHead) ∧
    (∀ s i s', GStep cfg s (.taskDoneL i) s' →
      s'.workers = s.workers.set i .loopHead ∧
      ∃ u, s.workers[i]? = some (.dupAck u) ∨ s.workers[i]? = some (.failAck u)) ∧
    (∀ s l s' i pc, GStep cfg s l s' → s.workers[i]? = some pc →
      pc ≠ .loopHead → s'.workers[i]? = some .loopHead →
      (∃ u, pc = .sleeping u ∧ l = .sleepDelayL i) ∨
      (∃ u, (pc = .dupAck u ∨ pc = .failAck u) ∧ l = .taskDoneL i) ∨
      (pc = .atGet ∧ l = .tau i)) := by
  refine ⟨?_, ?_, ?_⟩
  · intro s i s' h
    exact sleepDelay_char h
  · intro s i s' h
    exact ⟨(taskDone_char h).2.2.1, (taskDone_char h).1⟩
  · intro s l s' i pc h hpc hne hpost
    exact loopHead_entry_char h i pc hpc hne hpost

theorem sleep_only_after_success_witness :
    cSys9After.workers = cSys9.workers.set 0 .loopHead := by
  obtain ⟨u, hu, hw⟩ := (sleep_only_after_success cfg0).1 cSys9 0 cSys9After
    (GStep.sleepStepEnd cSys9 0 "a" (by decide))
  exact hw

/-- C9 counterexample: the claim's characterisation is false on the code:
the filter drops every link containing `#`, not only fragment-only links.
The in-domain url `https://roc-eclerc.com/services#tarifs` passes all four
spec tests (it is not fragment-only) yet is excluded by `_extract_links`. -/
theorem link_filter_claim_false : ¬ linkFilterClaim := by
  intro h
  have := (h ["https://roc-eclerc.com/services#tarifs"]
      "https://roc-eclerc.com/services#tarifs").2 ⟨by decide, by decide⟩
  revert this
  decide

/-- C9 (amended): for every domain, blacklist and extracted link set, the
enqueue-time filter keeps exactly the urls that start with the
target-domain prefix, contain no `#` character (a broader exclusion than
fragment-only links), do not end in `.pdf`, `.doc` or `.docx`, and contain
none of the blacklist substrings. -/
theorem extract_links_mem (domain : String) (blacklist : List String)
    (hrefs : List String) (href : String) :
    href ∈ extract_links domain blacklist hrefs ↔
      (href ∈ hrefs ∧ strStartsWith href domain = true ∧
       strContainsChar href '#' = false ∧
       strEndsWith href ".pdf" = false ∧ strEndsWith href ".doc" = false ∧
       strEndsWith href ".docx" = false ∧
       ∀ pat ∈ blacklist, strIncludes href pat = false) := by
  simp [extract_links, List.mem_filter, jsLinkKeep, and_assoc]
  tauto

/-- C10: `task_done` is called exactly on the duplicate-skip and failure
paths (never after a successfully processed url), these are the only steps
that decrease the queue's unfinished-task counter, and in every reachable
state of a run in which at least one url has been processed successfully
the unfinished-task counter is non-zero — so the final
`queue.join()` drain can never complete normally and always ends by its
timeout. -/
theorem task_done_placement_and_drain (cfg : CrawlerSettings) :
    (∀ s i s', GStep cfg s (.taskDoneL i) s' →
      ∃ u, s.workers[i]? = some (.dupAck u) ∨ s.workers[i]? = some (.failAck u)) ∧
    (∀ s l s', GStep cfg s l s' →
      s'.shared.unfinished_tasks < s.shared.unfinished_tasks →
      ∃ i, l = .taskDoneL i) ∧
    (∀ seed n s, Reach cfg seed n s → 1 ≤ s.shared.stats.total_processed →
      s.shared.unfinished_tasks ≠ 0) := by
  refine ⟨?_, ?_, ?_⟩
  · intro s i s' h
    exact (taskDone_char h).1
  · intro s l s' h hlt
    exact unfinished_decrease_char h hlt
  · intro seed n s hs hp
    have htok := reach_token hs
    have hproc := reach_proc hs
    have hmono : s.workers.countP pastBump ≤ s.workers.countP holding :=
      List.countP_mono_left (fun pc _ hpb => pastBump_imp_holding hpb)
    omega

theorem task_done_placement_witness :
    demoSys8.shared.unfinished_tasks ≠ 0 :=
  (task_done_placement_and_drain defaultSettings).2.2 "a" 1 demoSys8
    ⟨_, demo_run8⟩ (by decide)

end Crawl
